import Mathlib

/-!
Verification of the geospatial conquest-tracking engine of `src/app.py`.

Modelling conventions (shallow embedding):
* Python floats are modelled as exact rationals (ℚ); floating-point rounding
  error is idealized away, as the specification itself does.
* Python `round` is banker's rounding (round half to even), modelled exactly
  on ℚ by `pyRound`; `round(x, n)` is `pyRoundTo n x`.
* Python dicts are association lists in insertion order (`alookup` / `aset` /
  `amod`), and Python sets are duplicate-free lists in insertion order
  (`sadd`); set iteration order never affects any value asserted below.
* Fallible code (ZeroDivisionError reachable when the grid size is 0) is
  modelled with `Option`: `none` is an uncaught Python exception.
* Strings appear where the source manipulates strings, except that the
  month key "YYYY-MM" and the timestamp "YYYY-MM-DDTHH:MM:SSZ" are encoded
  as naturals (`100 * year + month`, resp. an abstract sort key) whose
  numeric order coincides with the lexicographic order the source uses on
  those fixed-width strings.
-/

namespace Unlock

/-- Python `round(x)`: nearest integer, ties to the even integer. -/
def pyRound (x : ℚ) : ℤ :=
  let f := ⌊x⌋
  let r := x - (f : ℚ)
  if r < 1/2 then f
  else if 1/2 < r then f + 1
  else if f % 2 = 0 then f else f + 1

/-- Python `round(x, n)`: round to `n` decimal digits, ties to even. -/
def pyRoundTo (n : ℕ) (x : ℚ) : ℚ := (pyRound (x * 10 ^ n) : ℚ) / 10 ^ n

theorem pyRound_eq_of_lt_half {x : ℚ} {n : ℤ} (h1 : (n : ℚ) ≤ x)
    (h2 : x < (n : ℚ) + 1/2) : pyRound x = n := by
  have hf : ⌊x⌋ = n := by
    rw [Int.floor_eq_iff]
    constructor
    · exact_mod_cast h1
    · have : (n : ℚ) + 1/2 ≤ n + 1 := by norm_num
      exact lt_of_lt_of_le h2 this
  unfold pyRound
  simp only [hf]
  rw [if_pos]
  linarith

theorem pyRound_eq_of_gt_half {x : ℚ} {n : ℤ} (h1 : (n : ℚ) - 1/2 < x)
    (h2 : x ≤ (n : ℚ)) : pyRound x = n := by
  rcases eq_or_lt_of_le h2 with h | h
  · subst h
    have hf : ⌊(n : ℚ)⌋ = n := Int.floor_intCast n
    unfold pyRound
    simp only [hf]
    rw [if_pos]
    norm_num
  · have hf : ⌊x⌋ = n - 1 := by
      rw [Int.floor_eq_iff]
      constructor
      · push_cast
        linarith
      · push_cast
        linarith
    unfold pyRound
    simp only [hf]
    rw [if_neg, if_pos]
    · omega
    · push_cast
      linarith
    · push_cast
      linarith

theorem pyRound_intCast (n : ℤ) : pyRound (n : ℚ) = n :=
  pyRound_eq_of_lt_half le_rfl (by norm_num)

/-- Banker's rounding moves the value by at most 1/2. -/
theorem pyRound_bounds (x : ℚ) : x - 1/2 ≤ (pyRound x : ℚ) ∧ (pyRound x : ℚ) ≤ x + 1/2 := by
  have h1 : (⌊x⌋ : ℚ) ≤ x := Int.floor_le x
  have h2 : x < (⌊x⌋ : ℚ) + 1 := Int.lt_floor_add_one x
  unfold pyRound
  by_cases hc1 : x - (⌊x⌋ : ℚ) < 1/2
  · simp only [if_pos hc1]
    constructor <;> linarith
  · simp only [if_neg hc1]
    by_cases hc2 : 1/2 < x - (⌊x⌋ : ℚ)
    · simp only [if_pos hc2]
      push_cast
      constructor <;> linarith
    · by_cases hc3 : ⌊x⌋ % 2 = 0
      · simp only [if_neg hc2, if_pos hc3]
        constructor <;> linarith
      · simp only [if_neg hc2, if_neg hc3]
        push_cast
        constructor <;> linarith

theorem pyRoundTo_intCast (n : ℕ) (m : ℤ) : pyRoundTo n (m : ℚ) = m := by
  unfold pyRoundTo
  have hx : ((m : ℚ) * 10 ^ n) = ((m * 10 ^ n : ℤ) : ℚ) := by push_cast; ring
  rw [hx, pyRound_intCast]
  push_cast
  field_simp

/-- `round(x, 2)` keeps a value of `[0, 100]` inside `[0, 100]` (the rounded
integer `round(100 x)` is within 1/2 of `100 x` and is an integer). -/
theorem pyRoundTo_two_mem_Icc {x : ℚ} (h0 : 0 ≤ x) (h1 : x ≤ 100) :
    0 ≤ pyRoundTo 2 x ∧ pyRoundTo 2 x ≤ 100 := by
  obtain ⟨hl, hu⟩ := pyRound_bounds (x * 10 ^ 2)
  set k : ℤ := pyRound (x * 10 ^ 2) with hk
  have hl2 : 100 * x - 1/2 ≤ (k : ℚ) := by
    calc 100 * x - 1/2 = x * 10 ^ 2 - 1/2 := by ring
    _ ≤ _ := hl
  have hu2 : (k : ℚ) ≤ 100 * x + 1/2 := by
    calc (k : ℚ) ≤ x * 10 ^ 2 + 1/2 := hu
    _ = 100 * x + 1/2 := by ring
  have hk0 : 0 ≤ k := by
    have hgt : (-1 : ℚ) < (k : ℚ) := by linarith
    have hz : (-1 : ℤ) < k := by exact_mod_cast hgt
    omega
  have hk1 : k ≤ 10000 := by
    have hlt : (k : ℚ) < 10001 := by linarith
    have hz : k < 10001 := by exact_mod_cast hlt
    omega
  unfold pyRoundTo
  rw [← hk]
  constructor
  · apply div_nonneg _ (by positivity)
    exact_mod_cast hk0
  · rw [div_le_iff₀ (by positivity)]
    calc (k : ℚ) ≤ 10000 := by exact_mod_cast hk1
    _ ≤ 100 * 10 ^ 2 := by norm_num

/-! ## GridIndexer: `get_cells_from_polyline` (src/app.py:84-105) -/

/-- A grid cell key: a pair of snapped, 6-decimal-rounded coordinates. -/
abbrev Cell := ℚ × ℚ

/-- `to_key` (src/app.py:89-91):
`(round(round(lat/grid)*grid, 6), round(round(lon/grid)*grid, 6))`.
The divisions raise ZeroDivisionError when the grid size is 0; that failure
is modelled at the call sites (`get_cells_from_polylineE`), this total
function is only meaningful for `g ≠ 0`. -/
def to_key (g lat lon : ℚ) : Cell :=
  (pyRoundTo 6 ((pyRound (lat / g) : ℚ) * g),
   pyRoundTo 6 ((pyRound (lon / g) : ℚ) * g))

/-- Squared Euclidean segment length in degrees; the source computes
`dist = (dlat**2 + dlon**2)**0.5` and only ever compares `dist` or divides
by it, so the irrational square root is eliminated exactly below. -/
def dSq (p c : Cell) : ℚ := (c.1 - p.1) ^ 2 + (c.2 - p.2) ^ 2

/-- The guard `dist > grid_size_deg * 0.7` (src/app.py:98), squared exactly:
for `0 ≤ g` it is `d2 > (0.7 g)²` (both sides of the original comparison are
then nonnegative); for `g < 0` it always holds since `dist ≥ 0 > 0.7 g`. -/
def distGt (d2 g : ℚ) : Bool := decide (g < 0) || decide ((7/10 * g) ^ 2 < d2)

/-- `num_steps = int(dist / (grid_size_deg * 0.5))` (src/app.py:99).
For `g > 0` this truncation of a nonnegative value is
`⌊sqrt(d2) / (g/2)⌋ = ⌊sqrt(4·d2/g²)⌋ = Nat.sqrt ⌊4·d2/g²⌋` (an integer `n`
satisfies `n ≤ sqrt r` iff `n² ≤ r` iff `n² ≤ ⌊r⌋`; see `le_numSteps_iff`).
For `g < 0` the Python value is ≤ 0 and `range(1, num_steps+1)` is empty,
modelled as 0 steps. -/
def numSteps (d2 g : ℚ) : ℕ :=
  if 0 < g then Nat.sqrt (⌊4 * d2 / g ^ 2⌋).toNat else 0

theorem le_numSteps_iff {d2 g : ℚ} (hg : 0 < g) (hd : 0 ≤ d2) (n : ℕ) :
    n ≤ numSteps d2 g ↔ ((n : ℚ) * (g / 2)) ^ 2 ≤ d2 := by
  have hq : (0 : ℚ) ≤ 4 * d2 / g ^ 2 := by positivity
  have hfl : 0 ≤ ⌊4 * d2 / g ^ 2⌋ := Int.floor_nonneg.mpr hq
  unfold numSteps
  rw [if_pos hg, Nat.le_sqrt]
  constructor
  · intro h
    have h1 : ((n * n : ℕ) : ℤ) ≤ ⌊4 * d2 / g ^ 2⌋ := by
      omega
    have h2 : ((n * n : ℕ) : ℚ) ≤ 4 * d2 / g ^ 2 :=
      le_trans (by exact_mod_cast Int.cast_le.mpr h1) (Int.floor_le _)
    have h3 : ((n : ℚ) * n) * g ^ 2 ≤ 4 * d2 := by
      have hg2 : (0 : ℚ) < g ^ 2 := by positivity
      calc ((n : ℚ) * n) * g ^ 2 = ((n * n : ℕ) : ℚ) * g ^ 2 := by push_cast; ring
      _ ≤ (4 * d2 / g ^ 2) * g ^ 2 := by
          exact mul_le_mul_of_nonneg_right h2 (le_of_lt hg2)
      _ = 4 * d2 := by field_simp
    nlinarith
  · intro h
    have hg2 : (0 : ℚ) < g ^ 2 := by positivity
    have h2 : ((n * n : ℕ) : ℚ) ≤ 4 * d2 / g ^ 2 := by
      rw [le_div_iff₀ hg2]
      push_cast
      nlinarith
    have h3 : ((n * n : ℕ) : ℤ) ≤ ⌊4 * d2 / g ^ 2⌋ := Int.le_floor.mpr (by exact_mod_cast h2)
    omega

/-- The interpolated points inserted across a long segment
(src/app.py:100-102): for `j = 1 .. num_steps`, the point at fraction
`j / (num_steps + 1)` along the segment; empty when the `0.7` guard fails. -/
def interpPts (g : ℚ) (p c : Cell) : List Cell :=
  if distGt (dSq p c) g then
    (List.range (numSteps (dSq p c) g)).map (fun j =>
      let frac : ℚ := ((j : ℚ) + 1) / ((numSteps (dSq p c) g : ℚ) + 1)
      (p.1 + (c.1 - p.1) * frac, p.2 + (c.2 - p.2) * frac))
  else []

/-- Python set insertion `s.add(x)`: a duplicate-free list in insertion
order. -/
def sadd {α : Type} [DecidableEq α] (l : List α) (x : α) : List α :=
  if x ∈ l then l else l ++ [x]

/-- Fold `sadd` over a list of new elements. -/
def saddAll {α : Type} [DecidableEq α] (l xs : List α) : List α :=
  xs.foldl sadd l

@[simp]
theorem mem_sadd {α : Type} [DecidableEq α] {l : List α} {x y : α} :
    y ∈ sadd l x ↔ y ∈ l ∨ y = x := by
  unfold sadd
  by_cases h : x ∈ l
  · simp only [if_pos h, List.mem_append]
    constructor
    · exact Or.inl
    · rintro (hy | rfl)
      · exact hy
      · exact h
  · simp [if_neg h]

@[simp]
theorem mem_saddAll {α : Type} [DecidableEq α] {l xs : List α} {y : α} :
    y ∈ saddAll l xs ↔ y ∈ l ∨ y ∈ xs := by
  induction xs generalizing l with
  | nil => simp [saddAll]
  | cons x t ih =>
    unfold saddAll at ih ⊢
    rw [List.foldl_cons, ih, mem_sadd]
    simp only [List.mem_cons]
    tauto

/-- The loop of `get_cells_from_polyline` (src/app.py:95-104): walk the
consecutive pairs, adding the canonicalized interpolated points (when the
gap guard fires) and the canonicalized current point. -/
def cellsLoop (g : ℚ) : Cell → List Cell → List Cell → List Cell
  | _, [], cells => cells
  | p, c :: rest, cells =>
      cellsLoop g c rest
        (sadd (saddAll cells ((interpPts g p c).map (fun q => to_key g q.1 q.2)))
          (to_key g c.1 c.2))

/-- `get_cells_from_polyline` (src/app.py:84-105), total version (meaningful
for grid size `g ≠ 0`): the returned Python set, as a duplicate-free list in
insertion order. -/
def get_cells_from_polyline (pts : List Cell) (g : ℚ) : List Cell :=
  match pts with
  | [] => []
  | p :: rest => cellsLoop g p rest (sadd [] (to_key g p.1 p.2))

/-- `get_cells_from_polyline`, with the reachable ZeroDivisionError made
explicit: the empty input returns before any `to_key` call; any other input
calls `to_key`, whose division `lat / grid_size_deg` raises iff the grid
size is 0 (`none` = uncaught exception). -/
def get_cells_from_polylineE (pts : List Cell) (g : ℚ) : Option (List Cell) :=
  match pts with
  | [] => some []
  | _ :: _ => if g = 0 then none else some (get_cells_from_polyline pts g)

theorem mem_cellsLoop_of_mem {g : ℚ} {x : Cell} :
    ∀ {p : Cell} {l cells : List Cell}, x ∈ cells → x ∈ cellsLoop g p l cells := by
  intro p l
  induction l generalizing p with
  | nil => intro cells h; exact h
  | cons c rest ih =>
    intro cells h
    exact ih (by simp [h])

theorem head_key_mem (p : Cell) (rest : List Cell) (g : ℚ) :
    to_key g p.1 p.2 ∈ get_cells_from_polyline (p :: rest) g := by
  unfold get_cells_from_polyline
  exact mem_cellsLoop_of_mem (by simp)

theorem getLast_key_mem_cellsLoop {g : ℚ} :
    ∀ (p : Cell) (l cells : List Cell), to_key g p.1 p.2 ∈ cells →
      to_key g ((p :: l).getLast (by simp)).1 ((p :: l).getLast (by simp)).2 ∈
        cellsLoop g p l cells := by
  intro p l
  induction l generalizing p with
  | nil => intro cells h; simpa [cellsLoop] using h
  | cons c rest ih =>
    intro cells h
    have hlast : (p :: c :: rest).getLast (by simp) = (c :: rest).getLast (by simp) := by
      simp [List.getLast_cons]
    rw [hlast]
    exact ih c _ (by simp)

@[simp]
theorem pyRound_zero : pyRound 0 = 0 := by
  have h := pyRound_intCast 0
  simpa using h

theorem to_key_one (lat lon : ℚ) :
    to_key 1 lat lon = ((pyRound lat : ℚ), (pyRound lon : ℚ)) := by
  unfold to_key
  simp only [div_one, mul_one]
  rw [pyRoundTo_intCast, pyRoundTo_intCast]

theorem nsqrt_two : Nat.sqrt 2 = 1 :=
  (Nat.eq_sqrt.mpr (by norm_num)).symm

theorem dSq_cex : dSq ((1:ℚ)/20, (0:ℚ)) (17/20, 0) = 16/25 := by
  unfold dSq
  norm_num

theorem distGt_cex : distGt ((16:ℚ)/25) 1 = true := by
  unfold distGt
  norm_num

theorem numSteps_cex : numSteps ((16:ℚ)/25) 1 = 1 := by
  unfold numSteps
  rw [if_pos one_pos]
  have hfl : ⌊(4 * (16/25) / 1 ^ 2 : ℚ)⌋ = 2 := by norm_num
  rw [hfl]
  simpa using nsqrt_two

theorem interpPts_cex :
    interpPts 1 ((1:ℚ)/20, (0:ℚ)) (17/20, 0) = [(9/20, 0)] := by
  unfold interpPts
  rw [dSq_cex, distGt_cex, if_pos rfl, numSteps_cex]
  rw [show List.range 1 = [0] from rfl]
  simp only [List.map_cons, List.map_nil]
  norm_num

theorem pyRound_cex1 : pyRound ((1:ℚ)/20) = 0 :=
  pyRound_eq_of_lt_half (by norm_num) (by norm_num)

theorem pyRound_cex2 : pyRound ((9:ℚ)/20) = 0 :=
  pyRound_eq_of_lt_half (by norm_num) (by norm_num)

theorem pyRound_cex3 : pyRound ((17:ℚ)/20) = 1 :=
  pyRound_eq_of_gt_half (by norm_num) (by norm_num)

theorem to_key_cex1 : to_key 1 ((1:ℚ)/20) 0 = (0, 0) := by
  rw [to_key_one, pyRound_cex1, pyRound_zero]
  norm_num

theorem to_key_cex2 : to_key 1 ((9:ℚ)/20) 0 = (0, 0) := by
  rw [to_key_one, pyRound_cex2, pyRound_zero]
  norm_num

theorem to_key_cex3 : to_key 1 ((17:ℚ)/20) 0 = (1, 0) := by
  rw [to_key_one, pyRound_cex3, pyRound_zero]
  norm_num

/-- On the two-point polyline `[(0.05, 0), (0.85, 0)]` with grid 1 degree,
the source interpolates one midpoint, but its cell collides with the first
endpoint's cell: the result is exactly the two endpoint cells. -/
theorem cells_cex :
    get_cells_from_polyline [((1:ℚ)/20, (0:ℚ)), (17/20, 0)] 1 = [(0, 0), (1, 0)] := by
  unfold get_cells_from_polyline cellsLoop
  rw [interpPts_cex]
  simp only [List.map_cons, List.map_nil]
  rw [to_key_cex1, to_key_cex2, to_key_cex3]
  unfold saddAll
  simp only [List.foldl_cons, List.foldl_nil]
  unfold sadd
  norm_num
  rfl

/-- C3, as stated, is false on the code: the interpolated cell need not be
distinct from the endpoint cells.  Counterexample: grid `r = 1` degree and
consecutive points `(0.05, 0)` and `(0.85, 0)`, whose distance `0.8` exceeds
`0.7 · r`; the single interpolated point `(0.45, 0)` canonicalizes to the
first endpoint's cell `(0, 0)`, so no cell distinct from both endpoints'
cells is returned. -/
theorem claim_C3_counterexample :
    distGt (dSq ((1:ℚ)/20, (0:ℚ)) (17/20, 0)) 1 = true ∧
    ¬ ∃ cell ∈ get_cells_from_polyline [((1:ℚ)/20, (0:ℚ)), (17/20, 0)] 1,
        cell ≠ to_key 1 ((1:ℚ)/20) 0 ∧ cell ≠ to_key 1 ((17:ℚ)/20) 0 := by
  constructor
  · rw [dSq_cex]
    exact distGt_cex
  · rw [cells_cex, to_key_cex1, to_key_cex3]
    rintro ⟨c, hc, h1, h2⟩
    simp only [List.mem_cons, List.not_mem_nil, or_false] at hc
    rcases hc with rfl | rfl
    · exact h1 rfl
    · exact h2 rfl

theorem interp_keys_mem_cellsLoop {g : ℚ} :
    ∀ (l : List Cell) (p0 : Cell) (cells : List Cell) (i : ℕ) (p c : Cell),
      (p0 :: l)[i]? = some p → (p0 :: l)[i+1]? = some c →
      ∀ q ∈ interpPts g p c, to_key g q.1 q.2 ∈ cellsLoop g p0 l cells := by
  intro l
  induction l with
  | nil =>
    intro p0 cells i p c _ hc
    have : ([p0] : List Cell)[i+1]? = none := by
      apply List.getElem?_eq_none
      simp
    rw [this] at hc
    exact absurd hc (by simp)
  | cons c0 rest ih =>
    intro p0 cells i p c hp hc q hq
    match i with
    | 0 =>
      simp only [List.getElem?_cons_zero, Option.some.injEq] at hp
      rw [List.getElem?_cons_succ, List.getElem?_cons_zero] at hc
      simp only [Option.some.injEq] at hc
      subst hp
      subst hc
      unfold cellsLoop
      apply mem_cellsLoop_of_mem
      apply mem_sadd.mpr
      left
      apply mem_saddAll.mpr
      right
      exact List.mem_map.mpr ⟨q, hq, rfl⟩
    | j + 1 =>
      rw [List.getElem?_cons_succ] at hp hc
      unfold cellsLoop
      exact ih c0 _ j p c hp hc q hq

/-- C3, amended: if two consecutive input points are farther apart than
`0.7 · r` (with `r > 0`), the code inserts `int(dist / (0.5 r)) ≥ 1`
interpolated points evenly spaced along the segment and the returned cell
set includes the canonicalization of every one of them — but those
interpolated cells may coincide with the endpoints' cells (see the
counterexample), so no cell strictly distinct from both endpoints' cells is
guaranteed. -/
theorem claim_C3_amended (g : ℚ) (hg : 0 < g) (pts : List Cell) (i : ℕ) (p c : Cell)
    (hp : pts[i]? = some p) (hc : pts[i+1]? = some c)
    (hd : (7/10 * g) ^ 2 < dSq p c) :
    1 ≤ numSteps (dSq p c) g ∧
    ∀ q ∈ interpPts g p c, to_key g q.1 q.2 ∈ get_cells_from_polyline pts g := by
  have hd0 : 0 ≤ dSq p c := by unfold dSq; positivity
  constructor
  · rw [le_numSteps_iff hg hd0]
    nlinarith
  · match pts, hp with
    | p0 :: l, hp =>
      unfold get_cells_from_polyline
      exact interp_keys_mem_cellsLoop l p0 _ i p c hp hc

/-- A closed instance discharging the hypotheses of the amended C3 theorem
at the counterexample input (one interpolated point, its cell included). -/
theorem claim_C3_amended_witness :
    (0 : ℚ) < 1 ∧
    ([((1:ℚ)/20, (0:ℚ)), (17/20, 0)] : List Cell)[0]? = some ((1:ℚ)/20, (0:ℚ)) ∧
    ([((1:ℚ)/20, (0:ℚ)), (17/20, 0)] : List Cell)[1]? = some ((17:ℚ)/20, (0:ℚ)) ∧
    (7/10 * (1:ℚ)) ^ 2 < dSq ((1:ℚ)/20, (0:ℚ)) (17/20, 0) ∧
    (1 ≤ numSteps (dSq ((1:ℚ)/20, (0:ℚ)) (17/20, 0)) 1 ∧
     ∀ q ∈ interpPts 1 ((1:ℚ)/20, (0:ℚ)) (17/20, 0),
       to_key 1 q.1 q.2 ∈ get_cells_from_polyline [((1:ℚ)/20, (0:ℚ)), (17/20, 0)] 1) :=
  ⟨by norm_num, rfl, rfl, by rw [dSq_cex]; norm_num,
   claim_C3_amended 1 (by norm_num) _ 0 _ _ rfl rfl (by rw [dSq_cex]; norm_num)⟩

/-- C4: for every resolution `r > 0` and point sequence, the returned cell
set contains the canonicalized first and last points; the empty sequence
yields the empty set; a single point yields exactly one cell. -/
theorem claim_C4 (pts : List Cell) (g : ℚ) (hg : 0 < g) :
    (∀ p, pts.head? = some p → to_key g p.1 p.2 ∈ get_cells_from_polyline pts g)
  ∧ (∀ p, pts.getLast? = some p → to_key g p.1 p.2 ∈ get_cells_from_polyline pts g)
  ∧ (pts = [] → get_cells_from_polyline pts g = [])
  ∧ (∀ p, pts = [p] → (get_cells_from_polyline pts g).length = 1) := by
  refine ⟨?_, ?_, ?_, ?_⟩
  · intro p hp
    match pts, hp with
    | p0 :: rest, hp =>
      simp only [List.head?_cons, Option.some.injEq] at hp
      subst hp
      exact head_key_mem p0 rest g
  · intro p hp
    match pts, hp with
    | p0 :: rest, hp =>
      rw [List.getLast?_eq_getLast (p0 :: rest) (by simp)] at hp
      simp only [Option.some.injEq] at hp
      subst hp
      unfold get_cells_from_polyline
      exact getLast_key_mem_cellsLoop p0 rest _ (by simp)
  · rintro rfl
    rfl
  · rintro p rfl
    simp [get_cells_from_polyline, cellsLoop, sadd]

theorem claim_C4_witness :
    (0 : ℚ) < 1 ∧
    ((∀ p, ([((0:ℚ), (0:ℚ)), ((1:ℚ), (0:ℚ))] : List Cell).head? = some p →
        to_key 1 p.1 p.2 ∈ get_cells_from_polyline [((0:ℚ), (0:ℚ)), ((1:ℚ), (0:ℚ))] 1)
  ∧ (∀ p, ([((0:ℚ), (0:ℚ)), ((1:ℚ), (0:ℚ))] : List Cell).getLast? = some p →
        to_key 1 p.1 p.2 ∈ get_cells_from_polyline [((0:ℚ), (0:ℚ)), ((1:ℚ), (0:ℚ))] 1)
  ∧ (([((0:ℚ), (0:ℚ)), ((1:ℚ), (0:ℚ))] : List Cell) = [] →
        get_cells_from_polyline [((0:ℚ), (0:ℚ)), ((1:ℚ), (0:ℚ))] 1 = [])
  ∧ (∀ p, ([((0:ℚ), (0:ℚ)), ((1:ℚ), (0:ℚ))] : List Cell) = [p] →
        (get_cells_from_polyline [((0:ℚ), (0:ℚ)), ((1:ℚ), (0:ℚ))] 1).length = 1)) :=
  ⟨by norm_num, claim_C4 _ 1 (by norm_num)⟩

/-! ## Python dicts as association lists (insertion order) -/

/-- Python `d.get(k)` / `k in d`: first (unique) binding of `k`. -/
def alookup {K V : Type} [DecidableEq K] : List (K × V) → K → Option V
  | [], _ => none
  | (k, v) :: t, q => if q = k then some v else alookup t q

/-- Python `d[k] = v`: replace in place if present, else append. -/
def aset {K V : Type} [DecidableEq K] : List (K × V) → K → V → List (K × V)
  | [], k, v => [(k, v)]
  | (k0, v0) :: t, k, v => if k = k0 then (k0, v) :: t else (k0, v0) :: aset t k v

/-- In-place update of the value at a (present) key. -/
def amod {K V : Type} [DecidableEq K] : List (K × V) → K → (V → V) → List (K × V)
  | [], _, _ => []
  | (k0, v0) :: t, k, f => if k = k0 then (k0, f v0) :: t else (k0, v0) :: amod t k f

theorem alookup_aset_self {K V : Type} [DecidableEq K] (l : List (K × V)) (k : K) (v : V) :
    alookup (aset l k v) k = some v := by
  induction l with
  | nil => simp [aset, alookup]
  | cons e t ih =>
    obtain ⟨k0, v0⟩ := e
    by_cases h : k = k0
    · subst h
      simp [aset, alookup]
    · simp only [aset, if_neg h, alookup]
      exact ih

theorem alookup_aset_ne {K V : Type} [DecidableEq K] (l : List (K × V)) {k q : K} (v : V)
    (h : q ≠ k) : alookup (aset l k v) q = alookup l q := by
  induction l with
  | nil => simp [aset, alookup, if_neg h]
  | cons e t ih =>
    obtain ⟨k0, v0⟩ := e
    by_cases h0 : k = k0
    · subst h0
      simp only [aset, if_pos rfl, alookup]
      rw [if_neg h, if_neg h]
    · simp only [aset, if_neg h0, alookup]
      by_cases hq : q = k0
      · rw [if_pos hq, if_pos hq]
      · rw [if_neg hq, if_neg hq]
        exact ih

theorem alookup_amod_ne {K V : Type} [DecidableEq K] (l : List (K × V)) {k q : K}
    (f : V → V) (h : q ≠ k) : alookup (amod l k f) q = alookup l q := by
  induction l with
  | nil => simp [amod]
  | cons e t ih =>
    obtain ⟨k0, v0⟩ := e
    by_cases h0 : k = k0
    · subst h0
      simp only [amod, if_pos rfl, alookup]
      rw [if_neg h, if_neg h]
    · simp only [amod, if_neg h0, alookup]
      by_cases hq : q = k0
      · rw [if_pos hq, if_pos hq]
      · rw [if_neg hq, if_neg hq]
        exact ih

theorem alookup_amod_self {K V : Type} [DecidableEq K] (l : List (K × V)) {k : K}
    {v : V} (f : V → V) (h : alookup l k = some v) :
    alookup (amod l k f) k = some (f v) := by
  induction l with
  | nil => simp [alookup] at h
  | cons e t ih =>
    obtain ⟨k0, v0⟩ := e
    simp only [alookup] at h
    by_cases h0 : k = k0
    · rw [if_pos h0] at h
      simp only [amod, if_pos h0, alookup]
      injection h with h
      rw [h]
    · rw [if_neg h0] at h
      simp only [amod, if_neg h0, alookup]
      exact ih h

theorem keys_amod {K V : Type} [DecidableEq K] (l : List (K × V)) (k : K) (f : V → V) :
    (amod l k f).map Prod.fst = l.map Prod.fst := by
  induction l with
  | nil => rfl
  | cons e t ih =>
    obtain ⟨k0, v0⟩ := e
    by_cases h0 : k = k0
    · simp [amod, if_pos h0]
    · simp [amod, if_neg h0, ih]

theorem alookup_eq_none_iff {K V : Type} [DecidableEq K] (l : List (K × V)) (q : K) :
    alookup l q = none ↔ q ∉ l.map Prod.fst := by
  induction l with
  | nil => simp [alookup]
  | cons e t ih =>
    obtain ⟨k0, v0⟩ := e
    simp only [alookup, List.map_cons, List.mem_cons]
    by_cases hq : q = k0
    · simp [if_pos hq, hq]
    · rw [if_neg hq, ih]
      constructor
      · intro h hc
        rcases hc with hc | hc
        · exact hq hc
        · exact h hc
      · intro h hc
        exact h (Or.inr hc)

theorem alookup_append_of_isSome {K V : Type} [DecidableEq K] (l l2 : List (K × V)) (q : K)
    (h : (alookup l q).isSome) : alookup (l ++ l2) q = alookup l q := by
  induction l with
  | nil => simp [alookup] at h
  | cons e t ih =>
    obtain ⟨k0, v0⟩ := e
    rw [List.cons_append]
    simp only [alookup] at h ⊢
    by_cases hq : q = k0
    · rw [if_pos hq, if_pos hq]
    · rw [if_neg hq] at h
      rw [if_neg hq, if_neg hq]
      exact ih h

theorem alookup_append_singleton_self {K V : Type} [DecidableEq K] (l : List (K × V))
    (k : K) (v : V) (h : alookup l k = none) :
    alookup (l ++ [(k, v)]) k = some v := by
  induction l with
  | nil => simp [alookup]
  | cons e t ih =>
    obtain ⟨k0, v0⟩ := e
    rw [List.cons_append]
    simp only [alookup] at h ⊢
    by_cases hq : k = k0
    · rw [if_pos hq] at h
      exact absurd h (by simp)
    · rw [if_neg hq] at h
      rw [if_neg hq]
      exact ih h

/-! ## Data model

An `Activity` is one element of the tier-1 cache: the cleaned record built
at src/app.py:126-134 from the external provider (the provider's paging
protocol and the polyline wire decoder are out of scope, §6 of the spec, so
`pts` carries the already-decoded point list and `startKey` an abstract sort
key whose numeric order equals the lexicographic order of the ISO timestamp
string `start_date_local`).  `year`/`month` stand for the fields parsed at
src/app.py:213-215; the month bucket string "YYYY-MM" is encoded as
`100 * year + month`, whose numeric order equals the string's lexicographic
order for four-digit years. -/
structure Activity where
  startKey : ℕ
  year : ℕ
  month : ℕ
  sport : String
  pts : List Cell
  distance : ℚ

/-- The month key `dt.strftime("%Y-%m")` (src/app.py:215, 300). -/
def ym (a : Activity) : ℕ := 100 * a.year + a.month

/-- Year filter (src/app.py:221 and, equivalently, 295): the activity is
processed iff the selected year is the string `all` or equals `str(dt.year)`. -/
def passYear (sel : String) (a : Activity) : Bool :=
  sel == "all" || toString a.year == sel

/-- Sport filter (src/app.py:222 and 295). -/
def passSport (sel : String) (a : Activity) : Bool :=
  sel == "all" || a.sport == sel

/-- `SPORT_TRANSLATIONS` (src/app.py:23-29). -/
def SPORT_TRANSLATIONS : List (String × String) :=
  [("Run", "Course à pied"), ("Ride", "Vélo"), ("Hike", "Randonnée"), ("Walk", "Marche"),
   ("AlpineSki", "Ski Alpin"), ("BackcountrySki", "Ski de Rando"), ("VirtualRide", "Vélo Virtuel"),
   ("VirtualRun", "Course Virtuelle"), ("GravelRide", "Gravel"), ("TrailRun", "Trail"),
   ("E-BikeRide", "Vélo Électrique"), ("Velomobile", "Vélomobile"), ("NordicSki", "Ski de Fond"),
   ("Snowshoe", "Raquettes")]

/-! ## ConquestAggregator: `/api/stats_history` computation (src/app.py:206-251) -/

/-- One `monthly_data` bucket: `{'new': 0, 'routine': 0}` (src/app.py:224). -/
structure MonthCnt where
  new : ℕ
  routine : ℕ
deriving DecidableEq

/-- The loop state of the stats-history computation (src/app.py:206-210). -/
structure StatsAcc where
  monthly : List (ℕ × MonthCnt)
  seen : List Cell
  years : List ℕ
  sports : List String
  total : ℕ

/-- The per-block classification (src/app.py:229-235): a block never seen
globally counts as `new` for the activity's month and increments the
running total; a block already seen counts as `routine`. -/
def classifyBlock (m : ℕ) (st : StatsAcc) (b : Cell) : StatsAcc :=
  if b ∈ st.seen then
    { st with monthly := amod st.monthly m (fun d => { d with routine := d.routine + 1 }) }
  else
    { st with seen := sadd st.seen b
            , monthly := amod st.monthly m (fun d => { d with new := d.new + 1 })
            , total := st.total + 1 }

/-- One iteration of `for act in activities` (src/app.py:212-235): record
year and sport (before the filters), then, if the filters pass, ensure the
month bucket exists, discretize the polyline and classify each block.
`none` propagates the ZeroDivisionError of a zero grid size. -/
def statsActStep (g : ℚ) (selY selS : String) (st : StatsAcc) (a : Activity) :
    Option StatsAcc :=
  let st1 := { st with years := sadd st.years a.year, sports := sadd st.sports a.sport }
  if passYear selY a && passSport selS a then
    let st2 := if (alookup st1.monthly (ym a)).isSome then st1
               else { st1 with monthly := st1.monthly ++ [(ym a, ⟨0, 0⟩)] }
    match get_cells_from_polylineE a.pts g with
    | none => none
    | some blocks => some (blocks.foldl (classifyBlock (ym a)) st2)
  else some st1

def statsLoop (g : ℚ) (selY selS : String) : List Activity → StatsAcc → Option StatsAcc
  | [], st => some st
  | a :: rest, st =>
    match statsActStep g selY selS st a with
    | none => none
    | some st1 => statsLoop g selY selS rest st1

/-- The JSON payload assembled at src/app.py:246-251. -/
structure StatsResult where
  labels : List ℕ
  conquest : List ℕ
  exploration : List ℕ
  routine : List ℕ
  total_blocks : ℕ
  available_years : List ℕ
  available_sports : List String
deriving DecidableEq

def monthNew (st : StatsAcc) (m : ℕ) : ℕ := ((alookup st.monthly m).getD ⟨0, 0⟩).new

def monthRoutine (st : StatsAcc) (m : ℕ) : ℕ := ((alookup st.monthly m).getD ⟨0, 0⟩).routine

/-- The `running += new; conquest.append(running)` loop (src/app.py:239-244). -/
def runningTotals (run : ℕ) : List ℕ → List ℕ
  | [] => []
  | x :: xs => (run + x) :: runningTotals (run + x) xs

/-- Assembly of the response (src/app.py:237-251): labels are the sorted
month keys; per-month series are looked up per label; `available_years` is
sorted descending, `available_sports` ascending. -/
def buildStats (st : StatsAcc) : StatsResult :=
  let labels := (st.monthly.map Prod.fst).mergeSort (fun a b => decide (a ≤ b))
  { labels := labels
  , conquest := runningTotals 0 (labels.map (monthNew st))
  , exploration := labels.map (monthNew st)
  , routine := labels.map (monthRoutine st)
  , total_blocks := st.total
  , available_years := st.years.mergeSort (fun a b => decide (b ≤ a))
  , available_sports := st.sports.mergeSort (fun a b => decide (a ≤ b)) }

/-- The whole stats-history computation (src/app.py:202-251): sort the
cached activities by start timestamp (Python's stable sort on the ISO
string), run the aggregation loop from the empty state, assemble. -/
def get_stats_compute (g : ℚ) (selY selS : String) (acts : List Activity) :
    Option StatsResult :=
  (statsLoop g selY selS
      (acts.mergeSort (fun a b => decide (a.startKey ≤ b.startKey)))
      ⟨[], [], [], [], 0⟩).map buildStats

/-! ## C1: month sums and prefix sums -/

/-- Total of the per-month `new` counters. -/
def sumNew (l : List (ℕ × MonthCnt)) : ℕ := (l.map (fun e => e.2.new)).sum

theorem alookup_isSome_iff {K V : Type} [DecidableEq K] (l : List (K × V)) (q : K) :
    (alookup l q).isSome ↔ q ∈ l.map Prod.fst := by
  rcases h : alookup l q with _ | v
  · simp only [Option.isSome_none, Bool.false_eq_true, false_iff]
    exact (alookup_eq_none_iff l q).mp h
  · simp only [Option.isSome_some, true_iff]
    by_contra hq
    rw [← alookup_eq_none_iff] at hq
    rw [h] at hq
    exact absurd hq (by simp)

theorem sumNew_amod_new (l : List (ℕ × MonthCnt)) (k : ℕ)
    (hk : (alookup l k).isSome) :
    sumNew (amod l k (fun d => { d with new := d.new + 1 })) = sumNew l + 1 := by
  induction l with
  | nil => simp [alookup] at hk
  | cons e t ih =>
    obtain ⟨k0, v0⟩ := e
    simp only [alookup] at hk
    by_cases h0 : k = k0
    · simp only [amod, if_pos h0, sumNew, List.map_cons, List.sum_cons]
      omega
    · rw [if_neg h0] at hk
      simp only [amod, if_neg h0, sumNew, List.map_cons, List.sum_cons]
      have := ih hk
      unfold sumNew at this
      omega

theorem sumNew_amod_routine (l : List (ℕ × MonthCnt)) (k : ℕ) :
    sumNew (amod l k (fun d => { d with routine := d.routine + 1 })) = sumNew l := by
  induction l with
  | nil => rfl
  | cons e t ih =>
    obtain ⟨k0, v0⟩ := e
    by_cases h0 : k = k0
    · simp [amod, if_pos h0, sumNew]
    · simp only [amod, if_neg h0, sumNew, List.map_cons, List.sum_cons]
      unfold sumNew at ih
      omega

theorem classifyBlock_keys (m : ℕ) (st : StatsAcc) (b : Cell) :
    (classifyBlock m st b).monthly.map Prod.fst = st.monthly.map Prod.fst := by
  unfold classifyBlock
  by_cases h : b ∈ st.seen
  · rw [if_pos h]
    exact keys_amod _ _ _
  · rw [if_neg h]
    exact keys_amod _ _ _

theorem classifyBlock_years (m : ℕ) (st : StatsAcc) (b : Cell) :
    (classifyBlock m st b).years = st.years ∧ (classifyBlock m st b).sports = st.sports := by
  unfold classifyBlock
  by_cases h : b ∈ st.seen
  · rw [if_pos h]
    exact ⟨rfl, rfl⟩
  · rw [if_neg h]
    exact ⟨rfl, rfl⟩

theorem classifyBlock_sum (m : ℕ) (st : StatsAcc) (b : Cell)
    (hm : (alookup st.monthly m).isSome)
    (h : sumNew st.monthly = st.total) :
    sumNew (classifyBlock m st b).monthly = (classifyBlock m st b).total := by
  unfold classifyBlock
  by_cases hb : b ∈ st.seen
  · rw [if_pos hb]
    simpa [sumNew_amod_routine] using h
  · rw [if_neg hb]
    simp only [sumNew_amod_new st.monthly m hm]
    omega

theorem foldl_classify_props (m : ℕ) (blocks : List Cell) :
    ∀ (st : StatsAcc), (alookup st.monthly m).isSome →
      (blocks.foldl (classifyBlock m) st).monthly.map Prod.fst = st.monthly.map Prod.fst
    ∧ (sumNew st.monthly = st.total →
        sumNew (blocks.foldl (classifyBlock m) st).monthly
          = (blocks.foldl (classifyBlock m) st).total)
    ∧ (blocks.foldl (classifyBlock m) st).years = st.years
    ∧ (blocks.foldl (classifyBlock m) st).sports = st.sports := by
  induction blocks with
  | nil => intro st _; exact ⟨rfl, fun h => h, rfl, rfl⟩
  | cons b bs ih =>
    intro st hm
    have hm2 : (alookup (classifyBlock m st b).monthly m).isSome := by
      rw [alookup_isSome_iff, classifyBlock_keys, ← alookup_isSome_iff]
      exact hm
    obtain ⟨hk, hs, hy, hsp⟩ := ih (classifyBlock m st b) hm2
    refine ⟨?_, ?_, ?_, ?_⟩
    · rw [List.foldl_cons, hk, classifyBlock_keys]
    · intro h
      rw [List.foldl_cons]
      exact hs (classifyBlock_sum m st b hm h)
    · rw [List.foldl_cons, hy, (classifyBlock_years m st b).1]
    · rw [List.foldl_cons, hsp, (classifyBlock_years m st b).2]

/-- The loop invariant of the stats computation: month keys are distinct
(it is a dict) and the sum of the per-month `new` counters equals the
running total (they are incremented together, src/app.py:232-233). -/
def StatsInv (st : StatsAcc) : Prop :=
  (st.monthly.map Prod.fst).Nodup ∧ sumNew st.monthly = st.total

theorem statsActStep_inv {g : ℚ} {selY selS : String} {st st' : StatsAcc} {a : Activity}
    (h : statsActStep g selY selS st a = some st') (hinv : StatsInv st) : StatsInv st' := by
  unfold statsActStep at h
  set st1 : StatsAcc :=
    { st with years := sadd st.years a.year, sports := sadd st.sports a.sport } with hst1
  have hinv1 : StatsInv st1 := hinv
  by_cases hf : (passYear selY a && passSport selS a) = true
  · rw [if_pos hf] at h
    rcases hc : get_cells_from_polylineE a.pts g with _ | blocks
    · rw [hc] at h
      exact absurd h (by simp)
    · rw [hc] at h
      simp only [Option.some_inj] at h
      by_cases hm : (alookup st1.monthly (ym a)).isSome
      · rw [if_pos hm] at h
        obtain ⟨hk, hs, _, _⟩ := foldl_classify_props (ym a) blocks st1 hm
        subst h
        exact ⟨by rw [hk]; exact hinv1.1, hs hinv1.2⟩
      · rw [if_neg hm] at h
        set st2 : StatsAcc := { st1 with monthly := st1.monthly ++ [(ym a, ⟨0, 0⟩)] }
          with hst2
        have hnone : alookup st1.monthly (ym a) = none :=
          Option.not_isSome_iff_eq_none.mp hm
        have hm2 : (alookup st2.monthly (ym a)).isSome := by
          show (alookup (st1.monthly ++ [(ym a, (⟨0, 0⟩ : MonthCnt))]) (ym a)).isSome
          rw [alookup_append_singleton_self _ _ _ hnone]
          rfl
        obtain ⟨hk, hs, _, _⟩ := foldl_classify_props (ym a) blocks st2 hm2
        subst h
        constructor
        · rw [hk]
          show (List.map Prod.fst (st1.monthly ++ [(ym a, (⟨0, 0⟩ : MonthCnt))])).Nodup
          simp only [List.map_append, List.map_cons, List.map_nil]
          rw [List.nodup_append]
          refine ⟨hinv1.1, by simp, ?_⟩
          simp only [List.disjoint_singleton]
          rw [← alookup_eq_none_iff]
          exact hnone
        · apply hs
          show sumNew (st1.monthly ++ [(ym a, (⟨0, 0⟩ : MonthCnt))]) = st1.total
          simp only [sumNew, List.map_append, List.sum_append, List.map_cons, List.map_nil]
          have := hinv1.2
          unfold sumNew at this
          simpa using this
  · rw [if_neg hf] at h
    simp only [Option.some_inj] at h
    subst h
    exact hinv1

theorem statsLoop_inv {g : ℚ} {selY selS : String} :
    ∀ {acts : List Activity} {st st' : StatsAcc},
      statsLoop g selY selS acts st = some st' → StatsInv st → StatsInv st' := by
  intro acts
  induction acts with
  | nil =>
    intro st st' h hinv
    simp only [statsLoop, Option.some_inj] at h
    subst h
    exact hinv
  | cons a rest ih =>
    intro st st' h hinv
    simp only [statsLoop] at h
    rcases hs : statsActStep g selY selS st a with _ | st1
    · rw [hs] at h
      exact absurd h (by simp)
    · rw [hs] at h
      exact ih h (statsActStep_inv hs hinv)

theorem map_alookup_eq_map_val {K V : Type} [DecidableEq K] (f : V → ℕ) (d : V) :
    ∀ l : List (K × V), (l.map Prod.fst).Nodup →
      (l.map Prod.fst).map (fun k => f ((alookup l k).getD d)) = l.map (fun e => f e.2) := by
  intro l
  induction l with
  | nil => intro _; rfl
  | cons e t ih =>
    obtain ⟨k0, v0⟩ := e
    intro hnd
    simp only [List.map_cons, List.nodup_cons] at hnd ⊢
    rw [show (alookup ((k0, v0) :: t) k0).getD d = v0 by simp [alookup]]
    have hcg : ∀ k ∈ t.map Prod.fst,
        f ((alookup ((k0, v0) :: t) k).getD d) = f ((alookup t k).getD d) := by
      intro k hk
      have hne : k ≠ k0 := by
        intro hkk
        exact hnd.1 (hkk ▸ hk)
      simp only [alookup, if_neg hne]
    rw [List.map_congr_left hcg, ih hnd.2]

theorem runningTotals_length (r : ℕ) (l : List ℕ) :
    (runningTotals r l).length = l.length := by
  induction l generalizing r with
  | nil => rfl
  | cons x xs ih => simp [runningTotals, ih]

theorem runningTotals_getElem (l : List ℕ) :
    ∀ (r i : ℕ), i < l.length →
      (runningTotals r l)[i]? = some (r + (l.take (i + 1)).sum) := by
  induction l with
  | nil => intro r i h; exact absurd h (by simp)
  | cons x xs ih =>
    intro r i h
    match i with
    | 0 => simp [runningTotals]
    | j + 1 =>
      simp only [runningTotals, List.getElem?_cons_succ]
      rw [ih (r + x) j (by simpa using h)]
      simp only [List.take_succ_cons, List.sum_cons]
      congr 1
      omega

/-- C1: for every activity sequence processed by the time-series query, the
sum over months of the per-month `new` counts equals `total_blocks`, and
`conquest[i]` is the prefix sum `exploration[0] + ... + exploration[i]`. -/
theorem claim_C1 (g : ℚ) (selY selS : String) (acts : List Activity) (res : StatsResult)
    (h : get_stats_compute g selY selS acts = some res) :
    res.exploration.sum = res.total_blocks
  ∧ res.conquest.length = res.exploration.length
  ∧ ∀ i, i < res.conquest.length →
      res.conquest[i]? = some ((res.exploration.take (i + 1)).sum) := by
  unfold get_stats_compute at h
  rcases hL : statsLoop g selY selS
      (acts.mergeSort (fun a b => decide (a.startKey ≤ b.startKey))) ⟨[], [], [], [], 0⟩
    with _ | st
  · rw [hL] at h
    exact absurd h (by simp)
  · rw [hL] at h
    rw [show (some st).map buildStats = some (buildStats st) from rfl,
      Option.some_inj] at h
    have hinv : StatsInv st := statsLoop_inv hL ⟨by simp, by simp [sumNew]⟩
    subst h
    have hperm := List.mergeSort_perm (st.monthly.map Prod.fst) (fun a b => decide (a ≤ b))
    refine ⟨?_, ?_, ?_⟩
    · show (((st.monthly.map Prod.fst).mergeSort (fun a b => decide (a ≤ b))).map
        (monthNew st)).sum = st.total
      rw [(hperm.map (monthNew st)).sum_eq]
      unfold monthNew
      rw [map_alookup_eq_map_val (fun d => d.new) ⟨0, 0⟩ st.monthly hinv.1]
      exact hinv.2
    · show (runningTotals 0 _).length = _
      exact runningTotals_length _ _
    · intro i hi
      show (runningTotals 0 (((st.monthly.map Prod.fst).mergeSort
          (fun a b => decide (a ≤ b))).map (monthNew st)))[i]? = _
      have hi2 : i < (runningTotals 0 (((st.monthly.map Prod.fst).mergeSort
          (fun a b => decide (a ≤ b))).map (monthNew st))).length := hi
      rw [runningTotals_length] at hi2
      rw [runningTotals_getElem _ 0 i hi2, Nat.zero_add]
      rfl

/-! ## Map view: `/api/activities` grid tally (src/app.py:278-316) -/

/-- One `grid_store` entry (src/app.py:304). -/
structure GridStat where
  cnt : ℕ
  first : ℕ
  last : ℕ
deriving DecidableEq

/-- The accumulator of the activity loop (src/app.py:278-311). -/
structure RouteAcc where
  years : List ℕ
  sports : List (String × String)
  coords : List (List Cell)
  store : List (Cell × GridStat)
  dist : ℚ
  count : ℕ

/-- Per-block tally (src/app.py:302-308): create the entry on first sight,
then increment the count and widen the first/last-seen months.  The month
comparisons are the source's string comparisons on "YYYY-MM", which agree
with the numeric encoding. -/
def tallyBlock (m : ℕ) (store : List (Cell × GridStat)) (b : Cell) :
    List (Cell × GridStat) :=
  let store1 := if (alookup store b).isSome then store else store ++ [(b, ⟨0, m, m⟩)]
  amod store1 b (fun s =>
    let s1 := { s with cnt := s.cnt + 1 }
    let s2 := if m < s1.first then { s1 with first := m } else s1
    if s2.last < m then { s2 with last := m } else s2)

/-- One iteration of the map-view activity loop (src/app.py:286-311):
always record year and sport; when the filters pass, append the decoded
coordinates, tally every cell of the polyline, and add distance (km) and
activity count. -/
def routeActStep (g : ℚ) (selY selS : String) (st : RouteAcc) (a : Activity) :
    Option RouteAcc :=
  let st1 := { st with
      years := sadd st.years a.year,
      sports := if (alookup st.sports a.sport).isSome then st.sports
                else st.sports ++ [(a.sport, (alookup SPORT_TRANSLATIONS a.sport).getD a.sport)] }
  if passYear selY a && passSport selS a then
    match get_cells_from_polylineE a.pts g with
    | none => none
    | some blocks =>
      some { st1 with
          coords := st1.coords ++ [a.pts],
          store := blocks.foldl (tallyBlock (ym a)) st1.store,
          dist := st1.dist + a.distance / 1000,
          count := st1.count + 1 }
  else some st1

def routeLoop (g : ℚ) (selY selS : String) : List Activity → RouteAcc → Option RouteAcc
  | [], st => some st
  | a :: rest, st =>
    match routeActStep g selY selS st a with
    | none => none
    | some st1 => routeLoop g selY selS rest st1

/-! ## MunicipalityResolver and ContainmentEngine (src/app.py:64-82, 318-353) -/

/-- A resolved municipality boundary, as normalized at src/app.py:75-79:
`name = nom`, `area_m2 = surface * 10000`, `outline` the (lat, lon)-swapped
contour ring. -/
structure Muni where
  name : String
  area_m2 : ℚ
  outline : List Cell
deriving DecidableEq

/-- BoundaryStore key: the coordinates rounded to 3 decimals
(src/app.py:65 formats them into a string; distinct rounded pairs give
distinct strings). -/
abbrev MuniKey := ℚ × ℚ

/-- `fetch_city_data` (src/app.py:64-82): cache-first, else one remote
geocoder lookup with 3-second timeout.  The oracle models the remote call:
`none` is a timeout, a non-200 status, an empty result list or a raised
exception, all of which make the function return `None`;
`some m` is a successful normalized response. -/
def fetch_city_data (cache : List (MuniKey × Muni)) (oracle : Cell → Option Muni)
    (lat lon : ℚ) : Option (MuniKey × Muni) :=
  let key : MuniKey := (pyRoundTo 3 lat, pyRoundTo 3 lon)
  match alookup cache key with
  | some m => some (key, m)
  | none =>
    match oracle (lat, lon) with
    | some m => some (key, m)
    | none => none

/-- One `top_municipalities` entry (src/app.py:346-349). -/
structure Summary where
  name : String
  outline : List Cell
  blocks : ℕ
  percent : ℚ
deriving DecidableEq

/-- The `try:` block of src/app.py:333-349 for one municipality.
`contains` abstracts the prepared shapely polygon's point-in-polygon test
(an external pure geometry predicate).  `none` is the `except: pass` path:
an empty outline raises before the candidate scan (`Polygon` /
`muni['outline'][0][0]`), a zero area raises ZeroDivisionError in the
percentage; other shapely geometry errors likewise skip the municipality
and are not modelled further.  A municipality with no contained cell is
not emitted (src/app.py:344). -/
def processMuni (contains : List Cell → Cell → Bool) (gridKeys : List Cell)
    (gridMeters : ℤ) (muni : Muni) : Option Summary :=
  match muni.outline with
  | [] => none
  | v :: _ =>
    let countInside := (gridKeys.filter (fun c =>
      decide (|c.1 - v.1| < 15/100) && contains muni.outline c)).length
    if 0 < countInside then
      if muni.area_m2 = 0 then none
      else
        let pct := ((countInside : ℚ) * (gridMeters : ℚ) ^ 2 / muni.area_m2) * 100
        some ⟨muni.name, muni.outline, countInside, pyRoundTo 2 (min pct 100)⟩
    else none

/-- The collector state of the resolution batch: the shared boundary cache
`MUNI_CACHE` and the per-query `identified_cities` dict. -/
structure MuniPhase where
  muniCache : List (MuniKey × Muni)
  identified : List (String × Summary)
deriving DecidableEq

/-- Handling of one completed lookup future (src/app.py:326-350): a failed
lookup (`None`) is skipped; a successful one is written into `MUNI_CACHE`,
and is then processed only if its name is new and fewer than 50
municipalities have been identified — results completing after the cap is
reached are discarded. -/
def collectStep (contains : List Cell → Cell → Bool) (gridKeys : List Cell)
    (gridMeters : ℤ) (st : MuniPhase) (res : Option (MuniKey × Muni)) : MuniPhase :=
  match res with
  | none => st
  | some (key, muni) =>
    if (alookup st.identified muni.name).isNone ∧ st.identified.length < 50 then
      match processMuni contains gridKeys gridMeters muni with
      | some summ => ⟨aset st.muniCache key muni, st.identified ++ [(muni.name, summ)]⟩
      | none => ⟨aset st.muniCache key muni, st.identified⟩
    else ⟨aset st.muniCache key muni, st.identified⟩

/-- Candidate selection (src/app.py:320-321): the cells sorted by visit
count descending (Python's stable sort with `reverse=True`), truncated to
600. -/
def scan_points (store : List (Cell × GridStat)) : List Cell :=
  ((store.mergeSort (fun a b => decide (b.2.cnt ≤ a.2.cnt))).take 600).map Prod.fst

/-- The resolution batch (src/app.py:319-353).  The worker pool completes
the lookups in a nondeterministic order; the collector's fold is modelled
in submission order here, and the order-insensitive properties (cap,
failure-skipping) are proved over an arbitrary completion-order list.
Workers read the cache as of submission time. -/
def muniPhase (contains : List Cell → Cell → Bool) (oracle : Cell → Option Muni)
    (muniCache : List (MuniKey × Muni)) (store : List (Cell × GridStat))
    (gridMeters : ℤ) : MuniPhase :=
  if store.isEmpty then ⟨muniCache, []⟩
  else
    let results := (scan_points store).map (fun c => fetch_city_data muniCache oracle c.1 c.2)
    results.foldl (collectStep contains (store.map Prod.fst) gridMeters) ⟨muniCache, []⟩

/-- The JSON payload of `/api/activities` (src/app.py:278-357). -/
structure RouteData where
  coords : List (List Cell)
  grid_cells : List (Cell × ℕ × ℕ × ℕ)
  grid_size_used : ℚ
  available_years : List ℕ
  available_sports : List (String × String)
  top_municipalities : List Summary
  total_distance : ℚ
  activity_count : ℕ
  cells_conquered : ℕ
deriving DecidableEq

/-- The whole map-view computation (src/app.py:275-357): the activity loop
(not sorted), the assembly of `grid_cells` / `stats` / sorted filter sets
(src/app.py:313-316), then the municipality batch.  Returns the payload
and the updated shared boundary cache. -/
def get_activities_compute (contains : List Cell → Cell → Bool)
    (oracle : Cell → Option Muni) (muniCache : List (MuniKey × Muni))
    (g : ℚ) (gridMeters : ℤ) (selY selS : String) (acts : List Activity) :
    Option (RouteData × List (MuniKey × Muni)) :=
  match routeLoop g selY selS acts ⟨[], [], [], [], 0, 0⟩ with
  | none => none
  | some st =>
    let mp := muniPhase contains oracle muniCache st.store gridMeters
    some ({ coords := st.coords
          , grid_cells := st.store.map (fun e => (e.1, e.2.cnt, e.2.first, e.2.last))
          , grid_size_used := g
          , available_years := st.years.mergeSort (fun a b => decide (b ≤ a))
          , available_sports := st.sports.mergeSort (fun a b => decide (a.2 ≤ b.2))
          , top_municipalities :=
              (mp.identified.map Prod.snd).mergeSort (fun a b => decide (b.blocks ≤ a.blocks))
          , total_distance := st.dist
          , activity_count := st.count
          , cells_conquered := st.store.length }, mp.muniCache)

/-! ## The three-tier cache and the two API endpoints
(src/app.py:35-41, 107-137, 182-357) -/

/-- A value of `API_RESULT_CACHE[token][key]`: either endpoint's payload. -/
inductive CacheVal where
  | stats : StatsResult → CacheVal
  | act : RouteData → CacheVal
deriving DecidableEq

/-- The process-wide mutable state: `RAW_DATA_CACHE` (tier 1, token →
cleaned activities), `API_RESULT_CACHE` (tier 2, token → key string →
payload) and `MUNI_CACHE` (tier 3, shared boundary store). -/
structure ServerState where
  rawCache : List (String × List Activity)
  resultCache : List (String × List (String × CacheVal))
  muniCache : List (MuniKey × Muni)

/-- `get_strava_activities_cached` (src/app.py:107-137): return the cached
sequence, else store and return the upstream fetch.  The paging/cleaning
loop against the external provider (out of scope, §6) is abstracted by the
`upstream` list it would produce; the returned Bool records whether the
provider was invoked. -/
def get_strava_activities_cached (upstream : List Activity) (token : String)
    (st : ServerState) : List Activity × ServerState × Bool :=
  match alookup st.rawCache token with
  | some acts => (acts, st, false)
  | none => (upstream, { st with rawCache := aset st.rawCache token upstream }, true)

/-- `if token not in API_RESULT_CACHE: API_RESULT_CACHE[token] = {}`
(src/app.py:195, 268). -/
def ensureToken (st : ServerState) (token : String) : ServerState :=
  if (alookup st.resultCache token).isSome then st
  else { st with resultCache := st.resultCache ++ [(token, [])] }

def resultLookup (st : ServerState) (token key : String) : Option CacheVal :=
  match alookup st.resultCache token with
  | none => none
  | some m => alookup m key

def resultStore (st : ServerState) (token key : String) (v : CacheVal) : ServerState :=
  ServerState.mk st.rawCache
    (aset st.resultCache token (aset ((alookup st.resultCache token).getD []) key v))
    st.muniCache

/-- The request parameters accepted by both endpoints, already parsed
(`grid_size` via `int(...)`, year and sport filters as raw strings with
the sentinel `all`). -/
structure Params where
  gridMeters : ℤ
  selYear : String
  selSport : String

/-- An endpoint outcome that is not a JSON payload: the explicit 401
rejection (src/app.py:185, 260), or an uncaught exception (Flask's
HTTP 500), the only one reachable in scope being the ZeroDivisionError of
a zero grid size. -/
inductive RouteErr where
  | unauthenticated
  | serverError
deriving DecidableEq

def httpStatus : RouteErr → ℕ
  | .unauthenticated => 401
  | .serverError => 500

/-- The error body `jsonify({"error": "Login required"})` exists only for
the explicit rejection. -/
def errPayload : RouteErr → Option String
  | .unauthenticated => some "Login required"
  | .serverError => none

/-- The `API_RESULT_CACHE` key `f"stats_{grid_meters}_{sel_year}_{sel_sport}"`
(src/app.py:193). -/
def statsKey (p : Params) : String :=
  "stats_" ++ toString p.gridMeters ++ "_" ++ p.selYear ++ "_" ++ p.selSport

/-- The `API_RESULT_CACHE` key `f"act_{grid_meters}_{sel_year}_{sel_sport}"`
(src/app.py:267). -/
def actKey (p : Params) : String :=
  "act_" ++ toString p.gridMeters ++ "_" ++ p.selYear ++ "_" ++ p.selSport

/-- `/api/stats_history` (src/app.py:182-255).  Returns the response, the
new server state, and whether the upstream activity provider was invoked. -/
def get_stats_history (upstream : List Activity) (tok : Option String) (p : Params)
    (st : ServerState) : (RouteErr ⊕ CacheVal) × ServerState × Bool :=
  match tok with
  | none => (.inl .unauthenticated, st, false)
  | some token =>
    match resultLookup (ensureToken st token) token (statsKey p) with
    | some v => (.inr v, ensureToken st token, false)
    | none =>
      match get_strava_activities_cached upstream token (ensureToken st token) with
      | (acts, st1, invoked) =>
        match get_stats_compute ((p.gridMeters : ℚ) / 111320) p.selYear p.selSport acts with
        | none => (.inl .serverError, st1, invoked)
        | some res =>
          (.inr (.stats res), resultStore st1 token (statsKey p) (.stats res), invoked)

/-- `/api/activities` (src/app.py:257-357), same caching discipline; a
computed response also updates the shared boundary cache. -/
def get_activities_route (contains : List Cell → Cell → Bool)
    (oracle : Cell → Option Muni) (upstream : List Activity) (tok : Option String)
    (p : Params) (st : ServerState) : (RouteErr ⊕ CacheVal) × ServerState × Bool :=
  match tok with
  | none => (.inl .unauthenticated, st, false)
  | some token =>
    match resultLookup (ensureToken st token) token (actKey p) with
    | some v => (.inr v, ensureToken st token, false)
    | none =>
      match get_strava_activities_cached upstream token (ensureToken st token) with
      | (acts, st1, invoked) =>
        match get_activities_compute contains oracle st1.muniCache
            ((p.gridMeters : ℚ) / 111320) p.gridMeters p.selYear p.selSport acts with
        | none => (.inl .serverError, st1, invoked)
        | some (res, mc) =>
          (.inr (.act res),
           resultStore { st1 with muniCache := mc } token (actKey p) (.act res), invoked)

/-! ## C9: monotone evolution of the per-cell statistics -/

theorem tallyBlock_mono (m : ℕ) (store : List (Cell × GridStat)) (b : Cell)
    (c : Cell) (s : GridStat) (h : alookup store c = some s) :
    ∃ s', alookup (tallyBlock m store b) c = some s' ∧
      s.cnt ≤ s'.cnt ∧ s'.first ≤ s.first ∧ s.last ≤ s'.last := by
  unfold tallyBlock
  set store1 := if (alookup store b).isSome then store else store ++ [(b, ⟨0, m, m⟩)]
    with hs1
  have h1 : alookup store1 c = some s := by
    rw [hs1]
    by_cases hb : (alookup store b).isSome
    · rw [if_pos hb]; exact h
    · rw [if_neg hb]
      rw [alookup_append_of_isSome _ _ _ (by rw [h]; rfl)]
      exact h
  by_cases hcb : c = b
  · subst hcb
    refine ⟨_, alookup_amod_self store1 _ h1, ?_, ?_, ?_⟩
    · dsimp only
      split_ifs <;> simp
    · dsimp only
      split_ifs <;> simp_all <;> omega
    · dsimp only
      split_ifs <;> simp_all <;> omega
  · exact ⟨s, by rw [alookup_amod_ne _ _ hcb]; exact h1, le_refl _, le_refl _, le_refl _⟩

theorem foldl_tally_mono (m : ℕ) (blocks : List Cell) :
    ∀ (store : List (Cell × GridStat)) (c : Cell) (s : GridStat),
      alookup store c = some s →
      ∃ s', alookup (blocks.foldl (tallyBlock m) store) c = some s' ∧
        s.cnt ≤ s'.cnt ∧ s'.first ≤ s.first ∧ s.last ≤ s'.last := by
  induction blocks with
  | nil => intro store c s h; exact ⟨s, h, le_refl _, le_refl _, le_refl _⟩
  | cons b bs ih =>
    intro store c s h
    obtain ⟨s1, h1, hc1, hf1, hl1⟩ := tallyBlock_mono m store b c s h
    obtain ⟨s2, h2, hc2, hf2, hl2⟩ := ih (tallyBlock m store b) c s1 h1
    exact ⟨s2, by rw [List.foldl_cons]; exact h2,
      le_trans hc1 hc2, le_trans hf2 hf1, le_trans hl1 hl2⟩

theorem routeActStep_mono {g : ℚ} {selY selS : String} {st st' : RouteAcc} {a : Activity}
    (h : routeActStep g selY selS st a = some st') (c : Cell) (s : GridStat)
    (hs : alookup st.store c = some s) :
    ∃ s', alookup st'.store c = some s' ∧
      s.cnt ≤ s'.cnt ∧ s'.first ≤ s.first ∧ s.last ≤ s'.last := by
  unfold routeActStep at h
  by_cases hf : (passYear selY a && passSport selS a) = true
  · rw [if_pos hf] at h
    rcases hc : get_cells_from_polylineE a.pts g with _ | blocks
    · rw [hc] at h
      exact absurd h (by simp)
    · rw [hc] at h
      simp only [Option.some_inj] at h
      subst h
      exact foldl_tally_mono (ym a) blocks st.store c s hs
  · rw [if_neg hf] at h
    simp only [Option.some_inj] at h
    subst h
    exact ⟨s, hs, le_refl _, le_refl _, le_refl _⟩

theorem routeLoop_mono (g : ℚ) (selY selS : String) :
    ∀ (acts : List Activity) (st st' : RouteAcc),
      routeLoop g selY selS acts st = some st' →
      ∀ (c : Cell) (s : GridStat), alookup st.store c = some s →
        ∃ s', alookup st'.store c = some s' ∧
          s.cnt ≤ s'.cnt ∧ s'.first ≤ s.first ∧ s.last ≤ s'.last := by
  intro acts
  induction acts with
  | nil =>
    intro st st' h c s hs
    simp only [routeLoop, Option.some_inj] at h
    subst h
    exact ⟨s, hs, le_refl _, le_refl _, le_refl _⟩
  | cons a rest ih =>
    intro st st' h c s hs
    simp only [routeLoop] at h
    rcases hstep : routeActStep g selY selS st a with _ | st1
    · rw [hstep] at h
      exact absurd h (by simp)
    · rw [hstep] at h
      obtain ⟨s1, h1, hc1, hf1, hl1⟩ := routeActStep_mono hstep c s hs
      obtain ⟨s2, h2, hc2, hf2, hl2⟩ := ih st1 st' h c s1 h1
      exact ⟨s2, h2, le_trans hc1 hc2, le_trans hf2 hf1, le_trans hl1 hl2⟩

/-- C9: across the map-view tally, every per-cell statistic evolves
monotonically — the visit count never decreases, the first-seen month never
moves later, the last-seen month never moves earlier. -/
theorem claim_C9 (g : ℚ) (selY selS : String) (acts : List Activity)
    (st st' : RouteAcc) (h : routeLoop g selY selS acts st = some st')
    (c : Cell) (s : GridStat) (hs : alookup st.store c = some s) :
    ∃ s', alookup st'.store c = some s' ∧
      s.cnt ≤ s'.cnt ∧ s'.first ≤ s.first ∧ s.last ≤ s'.last :=
  routeLoop_mono g selY selS acts st st' h c s hs

/-! ## C6: conquered percentage bounds -/

/-- C6: every emitted municipality has at least one contained cell and its
percentage, computed as `(count · meters²) / area · 100` clamped at 100
(then rounded to 2 decimals), lies within [0, 100].  The area delivered by
the geocoder (`surface` hectares × 10000) is nonnegative. -/
theorem claim_C6 (contains : List Cell → Cell → Bool) (gridKeys : List Cell)
    (gm : ℤ) (muni : Muni) (summ : Summary) (hA : 0 ≤ muni.area_m2)
    (h : processMuni contains gridKeys gm muni = some summ) :
    0 < summ.blocks
  ∧ 0 ≤ summ.percent ∧ summ.percent ≤ 100
  ∧ summ.percent
      = pyRoundTo 2 (min ((summ.blocks : ℚ) * (gm : ℚ) ^ 2 / muni.area_m2 * 100) 100) := by
  unfold processMuni at h
  split at h
  · exact absurd h (by simp)
  · rename_i v tail heq
    split at h
    · exact absurd h (by simp)
    · rename_i hz
      replace h : (if 0 < (gridKeys.filter (fun c =>
            decide (|c.1 - v.1| < 15/100) && contains muni.outline c)).length then
          some (⟨muni.name, muni.outline,
            (gridKeys.filter (fun c =>
              decide (|c.1 - v.1| < 15/100) && contains muni.outline c)).length,
            pyRoundTo 2 (min (((gridKeys.filter (fun c =>
              decide (|c.1 - v.1| < 15/100) && contains muni.outline c)).length : ℚ)
                * (gm : ℚ) ^ 2 / muni.area_m2 * 100) 100)⟩ : Summary)
        else none) = some summ := h
      split at h
      · rename_i hpos
        simp only [Option.some_inj] at h
        subst h
        have hAp : 0 < muni.area_m2 := lt_of_le_of_ne hA (Ne.symm hz)
        set cnt := (gridKeys.filter (fun c =>
          decide (|c.1 - v.1| < 15/100) && contains muni.outline c)).length with hcnt
        have hpct : 0 ≤ (cnt : ℚ) * (gm : ℚ) ^ 2 / muni.area_m2 * 100 := by positivity
        have hmin0 : 0 ≤ min ((cnt : ℚ) * (gm : ℚ) ^ 2 / muni.area_m2 * 100) 100 :=
          le_min hpct (by norm_num)
        have hmin1 : min ((cnt : ℚ) * (gm : ℚ) ^ 2 / muni.area_m2 * 100) 100 ≤ 100 :=
          min_le_right _ _
        obtain ⟨hb0, hb1⟩ := pyRoundTo_two_mem_Icc hmin0 hmin1
        exact ⟨hpos, hb0, hb1, rfl⟩
      · exact absurd h (by simp)

/-! ## C7: candidate and municipality caps -/

theorem collectStep_capped (contains : List Cell → Cell → Bool) (gridKeys : List Cell)
    (gm : ℤ) (st : MuniPhase) (res : Option (MuniKey × Muni))
    (h : 50 ≤ st.identified.length) :
    (collectStep contains gridKeys gm st res).identified = st.identified := by
  rcases res with _ | ⟨key, muni⟩
  · rfl
  · simp only [collectStep]
    rw [if_neg (fun hc => absurd hc.2 (by omega))]

theorem collectStep_le (contains : List Cell → Cell → Bool) (gridKeys : List Cell)
    (gm : ℤ) (st : MuniPhase) (res : Option (MuniKey × Muni))
    (h : st.identified.length ≤ 50) :
    (collectStep contains gridKeys gm st res).identified.length ≤ 50 := by
  rcases res with _ | ⟨key, muni⟩
  · exact h
  · simp only [collectStep]
    by_cases hc : (alookup st.identified muni.name).isNone = true ∧ st.identified.length < 50
    · rw [if_pos hc]
      rcases hp : processMuni contains gridKeys gm muni with _ | summ
      · show st.identified.length ≤ 50
        exact h
      · show (st.identified ++ [(muni.name, summ)]).length ≤ 50
        simp only [List.length_append, List.length_cons, List.length_nil]
        omega
    · rw [if_neg hc]
      exact h

theorem foldl_collect_le (contains : List Cell → Cell → Bool) (gridKeys : List Cell)
    (gm : ℤ) (results : List (Option (MuniKey × Muni))) :
    ∀ (st : MuniPhase), st.identified.length ≤ 50 →
      (results.foldl (collectStep contains gridKeys gm) st).identified.length ≤ 50 := by
  induction results with
  | nil => intro st h; exact h
  | cons r rs ih =>
    intro st h
    rw [List.foldl_cons]
    exact ih _ (collectStep_le contains gridKeys gm st r h)

/-- C7: at most 600 cells, ordered by visit count descending, are selected
as lookup candidates; the collector accepts no new municipality once 50
distinct names are identified (for any completion order of the lookups),
and a lookup completing after the cap is reached leaves the output
unchanged. -/
theorem claim_C7 (store : List (Cell × GridStat)) (contains : List Cell → Cell → Bool)
    (gridKeys : List Cell) (gm : ℤ) (results : List (Option (MuniKey × Muni)))
    (mc : List (MuniKey × Muni)) :
    (scan_points store).length ≤ 600
  ∧ List.Pairwise (fun a b => b.2.cnt ≤ a.2.cnt)
      ((store.mergeSort (fun a b => decide (b.2.cnt ≤ a.2.cnt))).take 600)
  ∧ (results.foldl (collectStep contains gridKeys gm) ⟨mc, []⟩).identified.length ≤ 50
  ∧ (∀ (st : MuniPhase) (res : Option (MuniKey × Muni)),
      50 ≤ st.identified.length →
      (collectStep contains gridKeys gm st res).identified = st.identified) := by
  refine ⟨?_, ?_, ?_, ?_⟩
  · unfold scan_points
    rw [List.length_map, List.length_take]
    omega
  · have hs := @List.sorted_mergeSort (Cell × GridStat)
      (fun a b => decide (b.2.cnt ≤ a.2.cnt))
      (fun a b c hab hbc => by
        simp only [decide_eq_true_iff] at hab hbc ⊢
        exact le_trans hbc hab)
      (fun a b => by
        rcases Nat.le_total a.2.cnt b.2.cnt with h | h
        · simp [h]
        · simp [h])
      store
    have htake := hs.sublist (List.take_sublist 600 _)
    exact htake.imp (fun hab => by simpa using hab)
  · exact foldl_collect_le contains gridKeys gm results ⟨mc, []⟩ (by simp)
  · exact fun st res h => collectStep_capped contains gridKeys gm st res h

/-! ## C5: filter choices come from the unfiltered activity set -/

theorem foldl_classify_ys (m : ℕ) (blocks : List Cell) :
    ∀ st : StatsAcc, (blocks.foldl (classifyBlock m) st).years = st.years
      ∧ (blocks.foldl (classifyBlock m) st).sports = st.sports := by
  induction blocks with
  | nil => exact fun st => ⟨rfl, rfl⟩
  | cons b bs ih =>
    intro st
    rw [List.foldl_cons]
    obtain ⟨h1, h2⟩ := ih (classifyBlock m st b)
    exact ⟨h1.trans (classifyBlock_years m st b).1, h2.trans (classifyBlock_years m st b).2⟩

theorem statsActStep_ys {g : ℚ} {selY selS : String} {st st' : StatsAcc} {a : Activity}
    (h : statsActStep g selY selS st a = some st') :
    st'.years = sadd st.years a.year ∧ st'.sports = sadd st.sports a.sport := by
  unfold statsActStep at h
  by_cases hf : (passYear selY a && passSport selS a) = true
  · rw [if_pos hf] at h
    rcases hc : get_cells_from_polylineE a.pts g with _ | blocks
    · rw [hc] at h
      exact absurd h (by simp)
    · rw [hc] at h
      simp only [Option.some_inj] at h
      subst h
      obtain ⟨h1, h2⟩ := foldl_classify_ys (ym a) blocks _
      refine ⟨h1.trans ?_, h2.trans ?_⟩ <;> (split <;> rfl)
  · rw [if_neg hf] at h
    simp only [Option.some_inj] at h
    subst h
    exact ⟨rfl, rfl⟩

theorem exists_mem_cons_iff {α : Type} (a : α) (l : List α) (P : α → Prop) :
    (∃ x ∈ a :: l, P x) ↔ P a ∨ ∃ x ∈ l, P x := by
  constructor
  · rintro ⟨x, hx, hp⟩
    rcases List.mem_cons.mp hx with rfl | hx
    · exact Or.inl hp
    · exact Or.inr ⟨x, hx, hp⟩
  · rintro (hp | ⟨x, hx, hp⟩)
    · exact ⟨a, List.mem_cons_self a l, hp⟩
    · exact ⟨x, List.mem_cons_of_mem a hx, hp⟩

theorem or_eq_exists_cons_iff {α β : Type} (Pmem : Prop) (la : List α) (aa : α)
    (f : α → β) (v : β) :
    ((Pmem ∨ v = f aa) ∨ ∃ a ∈ la, f a = v) ↔ (Pmem ∨ ∃ a ∈ aa :: la, f a = v) := by
  rw [exists_mem_cons_iff]
  constructor
  · rintro ((h | h) | h)
    · exact Or.inl h
    · exact Or.inr (Or.inl h.symm)
    · exact Or.inr (Or.inr h)
  · rintro (h | (h | h))
    · exact Or.inl (Or.inl h)
    · exact Or.inl (Or.inr h.symm)
    · exact Or.inr h

theorem statsLoop_ys {g : ℚ} {selY selS : String} :
    ∀ {acts : List Activity} {st st' : StatsAcc},
      statsLoop g selY selS acts st = some st' →
      ∀ v q, (v ∈ st'.years ↔ v ∈ st.years ∨ ∃ a ∈ acts, a.year = v)
        ∧ (q ∈ st'.sports ↔ q ∈ st.sports ∨ ∃ a ∈ acts, a.sport = q) := by
  intro acts
  induction acts with
  | nil =>
    intro st st' h v q
    simp only [statsLoop, Option.some_inj] at h
    subst h
    simp
  | cons a rest ih =>
    intro st st' h v q
    simp only [statsLoop] at h
    rcases hstep : statsActStep g selY selS st a with _ | st1
    · rw [hstep] at h
      exact absurd h (by simp)
    · rw [hstep] at h
      obtain ⟨hy, hs⟩ := statsActStep_ys hstep
      obtain ⟨ihy, ihs⟩ := ih h v q
      rw [hy] at ihy
      rw [hs] at ihs
      constructor
      · rw [ihy, mem_sadd]
        exact or_eq_exists_cons_iff (v ∈ st.years) rest a Activity.year v
      · rw [ihs, mem_sadd]
        exact or_eq_exists_cons_iff (q ∈ st.sports) rest a Activity.sport q

theorem routeActStep_ys {g : ℚ} {selY selS : String} {st st' : RouteAcc} {a : Activity}
    (h : routeActStep g selY selS st a = some st') :
    st'.years = sadd st.years a.year ∧
    (∀ q, q ∈ st'.sports.map Prod.fst ↔ q ∈ st.sports.map Prod.fst ∨ q = a.sport) := by
  have hsp : ∀ q, q ∈ (if (alookup st.sports a.sport).isSome then st.sports
      else st.sports ++ [(a.sport, (alookup SPORT_TRANSLATIONS a.sport).getD a.sport)]).map
        Prod.fst ↔ q ∈ st.sports.map Prod.fst ∨ q = a.sport := by
    intro q
    by_cases hm : (alookup st.sports a.sport).isSome
    · rw [if_pos hm]
      constructor
      · exact Or.inl
      · rintro (hq | rfl)
        · exact hq
        · exact (alookup_isSome_iff _ _).mp hm
    · rw [if_neg hm]
      simp
  unfold routeActStep at h
  by_cases hf : (passYear selY a && passSport selS a) = true
  · rw [if_pos hf] at h
    rcases hc : get_cells_from_polylineE a.pts g with _ | blocks
    · rw [hc] at h
      exact absurd h (by simp)
    · rw [hc] at h
      simp only [Option.some_inj] at h
      subst h
      exact ⟨rfl, hsp⟩
  · rw [if_neg hf] at h
    simp only [Option.some_inj] at h
    subst h
    exact ⟨rfl, hsp⟩

theorem routeLoop_ys {g : ℚ} {selY selS : String} :
    ∀ {acts : List Activity} {st st' : RouteAcc},
      routeLoop g selY selS acts st = some st' →
      ∀ v q, (v ∈ st'.years ↔ v ∈ st.years ∨ ∃ a ∈ acts, a.year = v)
        ∧ (q ∈ st'.sports.map Prod.fst ↔ q ∈ st.sports.map Prod.fst ∨ ∃ a ∈ acts, a.sport = q) := by
  intro acts
  induction acts with
  | nil =>
    intro st st' h v q
    simp only [routeLoop, Option.some_inj] at h
    subst h
    simp
  | cons a rest ih =>
    intro st st' h v q
    simp only [routeLoop] at h
    rcases hstep : routeActStep g selY selS st a with _ | st1
    · rw [hstep] at h
      exact absurd h (by simp)
    · rw [hstep] at h
      obtain ⟨hy, hs⟩ := routeActStep_ys hstep
      obtain ⟨ihy, ihs⟩ := ih h v q
      rw [hy] at ihy
      rw [hs q] at ihs
      constructor
      · rw [ihy, mem_sadd]
        exact or_eq_exists_cons_iff (v ∈ st.years) rest a Activity.year v
      · rw [ihs]
        exact or_eq_exists_cons_iff (q ∈ st.sports.map Prod.fst) rest a Activity.sport q

theorem exists_mem_of_perm {α : Type} {l₁ l₂ : List α} (h : l₁.Perm l₂) (P : α → Prop) :
    (∃ a ∈ l₁, P a) ↔ ∃ a ∈ l₂, P a := by
  constructor
  · rintro ⟨a, ha, hp⟩
    exact ⟨a, h.mem_iff.mp ha, hp⟩
  · rintro ⟨a, ha, hp⟩
    exact ⟨a, h.mem_iff.mpr ha, hp⟩

/-- C5: for both endpoints, `available_years` and `available_sports` are
exactly the years and sports occurring in the full unfiltered activity
sequence: activities excluded by the active year/sport filters still
contribute. -/
theorem claim_C5 (g : ℚ) (selY selS : String) (acts : List Activity) :
    (∀ res, get_stats_compute g selY selS acts = some res →
      (∀ y, y ∈ res.available_years ↔ ∃ a ∈ acts, a.year = y) ∧
      (∀ s, s ∈ res.available_sports ↔ ∃ a ∈ acts, a.sport = s))
  ∧ (∀ contains oracle mc gm res mc',
      get_activities_compute contains oracle mc g gm selY selS acts = some (res, mc') →
      (∀ y, y ∈ res.available_years ↔ ∃ a ∈ acts, a.year = y) ∧
      (∀ s, s ∈ res.available_sports.map Prod.fst ↔ ∃ a ∈ acts, a.sport = s)) := by
  constructor
  · intro res h
    unfold get_stats_compute at h
    rcases hL : statsLoop g selY selS
        (acts.mergeSort (fun a b => decide (a.startKey ≤ b.startKey))) ⟨[], [], [], [], 0⟩
      with _ | st
    · rw [hL] at h
      exact absurd h (by simp)
    · rw [hL] at h
      rw [show (some st).map buildStats = some (buildStats st) from rfl,
        Option.some_inj] at h
      subst h
      have hperm := List.mergeSort_perm acts (fun a b => decide (a.startKey ≤ b.startKey))
      constructor
      · intro y
        show y ∈ st.years.mergeSort (fun a b => decide (b ≤ a)) ↔ _
        rw [(List.mergeSort_perm st.years _).mem_iff]
        rw [((statsLoop_ys hL) y "").1]
        simp only [List.not_mem_nil, false_or]
        exact exists_mem_of_perm hperm _
      · intro s
        show s ∈ st.sports.mergeSort (fun a b => decide (a ≤ b)) ↔ _
        rw [(List.mergeSort_perm st.sports _).mem_iff]
        rw [((statsLoop_ys hL) 0 s).2]
        simp only [List.not_mem_nil, false_or]
        exact exists_mem_of_perm hperm _
  · intro contains oracle mc gm res mc' h
    unfold get_activities_compute at h
    rcases hL : routeLoop g selY selS acts ⟨[], [], [], [], 0, 0⟩ with _ | st
    · rw [hL] at h
      exact absurd h (by simp)
    · rw [hL] at h
      simp only [Option.some_inj, Prod.mk.injEq] at h
      obtain ⟨hres, hmc⟩ := h
      subst hres
      constructor
      · intro y
        show y ∈ st.years.mergeSort (fun a b => decide (b ≤ a)) ↔ _
        rw [(List.mergeSort_perm st.years _).mem_iff]
        rw [((routeLoop_ys hL) y "").1]
        simp
      · intro s
        show s ∈ (st.sports.mergeSort (fun a b => decide (a.2 ≤ b.2))).map Prod.fst ↔ _
        rw [((List.mergeSort_perm st.sports _).map Prod.fst).mem_iff]
        rw [((routeLoop_ys hL) 0 s).2]
        simp

/-! ## Cache plumbing lemmas (for C2, C8, C10) -/

theorem ensureToken_isSome (st : ServerState) (t : String) :
    (alookup (ensureToken st t).resultCache t).isSome := by
  unfold ensureToken
  by_cases h : (alookup st.resultCache t).isSome
  · rw [if_pos h]
    exact h
  · rw [if_neg h]
    show (alookup (st.resultCache ++ [(t, [])]) t).isSome
    rw [alookup_append_singleton_self _ _ _ (Option.not_isSome_iff_eq_none.mp h)]
    rfl

theorem ensureToken_of_isSome {st : ServerState} {t : String}
    (h : (alookup st.resultCache t).isSome) : ensureToken st t = st := by
  unfold ensureToken
  rw [if_pos h]

theorem resultLookup_congr {st1 st2 : ServerState} (t k : String)
    (h : st1.resultCache = st2.resultCache) :
    resultLookup st1 t k = resultLookup st2 t k := by
  unfold resultLookup
  rw [h]

theorem resultStore_isSome (st : ServerState) (t k : String) (v : CacheVal) :
    (alookup (resultStore st t k v).resultCache t).isSome := by
  show (alookup (aset _ t _) t).isSome
  rw [alookup_aset_self]
  rfl

theorem resultLookup_store_self (st : ServerState) (t k : String) (v : CacheVal) :
    resultLookup (resultStore st t k v) t k = some v := by
  unfold resultLookup
  show (match alookup (aset st.resultCache t
      (aset ((alookup st.resultCache t).getD []) k v)) t with
    | none => none
    | some m => alookup m k) = some v
  rw [alookup_aset_self]
  exact alookup_aset_self _ _ _

theorem compute_none_iff (contains : List Cell → Cell → Bool) (oracle : Cell → Option Muni)
    (mc : List (MuniKey × Muni)) (g : ℚ) (gm : ℤ) (y s : String) (acts : List Activity) :
    get_activities_compute contains oracle mc g gm y s acts = none ↔
      routeLoop g y s acts ⟨[], [], [], [], 0, 0⟩ = none := by
  unfold get_activities_compute
  rcases hL : routeLoop g y s acts ⟨[], [], [], [], 0, 0⟩ with _ | st <;> simp

theorem compute_strip (con1 con2 : List Cell → Cell → Bool)
    (o1 o2 : Cell → Option Muni) (mc1 mc2 : List (MuniKey × Muni))
    (g : ℚ) (gm : ℤ) (y s : String) (acts : List Activity) :
    (get_activities_compute con1 o1 mc1 g gm y s acts).map
        (fun r => (r.1.grid_cells, r.1.total_distance, r.1.activity_count, r.1.cells_conquered))
      = (get_activities_compute con2 o2 mc2 g gm y s acts).map
        (fun r => (r.1.grid_cells, r.1.total_distance, r.1.activity_count, r.1.cells_conquered)) := by
  unfold get_activities_compute
  rcases hL : routeLoop g y s acts ⟨[], [], [], [], 0, 0⟩ with _ | st <;> rfl

/-! ## C8: error surface -/

/-- The map-view fields the spec calls `grid_cells` and `stats`. -/
def gridView : RouteErr ⊕ CacheVal → Option (List (Cell × ℕ × ℕ × ℕ) × ℚ × ℕ × ℕ)
  | .inr (.act d) => some (d.grid_cells, d.total_distance, d.activity_count, d.cells_conquered)
  | _ => none

/-- C8: both endpoints return the explicit 401 payload iff no credential is
present; with a credential no path yields that rejection; a failed boundary
lookup is silently skipped by the collector, and `grid_cells` and `stats`
are identical whatever the containment predicate and geocoder oracle do. -/
theorem claim_C8 :
    (∀ (up : List Activity) (p : Params) (st : ServerState),
      get_stats_history up none p st = (.inl .unauthenticated, st, false))
  ∧ (∀ (c : List Cell → Cell → Bool) (o : Cell → Option Muni)
      (up : List Activity) (p : Params) (st : ServerState),
      get_activities_route c o up none p st = (.inl .unauthenticated, st, false))
  ∧ (httpStatus .unauthenticated = 401 ∧ errPayload .unauthenticated = some "Login required"
      ∧ httpStatus .serverError = 500 ∧ errPayload .serverError = none)
  ∧ (∀ (up : List Activity) (tok : String) (p : Params) (st : ServerState),
      (get_stats_history up (some tok) p st).1 ≠ .inl .unauthenticated)
  ∧ (∀ (c : List Cell → Cell → Bool) (o : Cell → Option Muni)
      (up : List Activity) (tok : String) (p : Params) (st : ServerState),
      (get_activities_route c o up (some tok) p st).1 ≠ .inl .unauthenticated)
  ∧ (∀ (c : List Cell → Cell → Bool) (keys : List Cell) (gm : ℤ) (st : MuniPhase),
      collectStep c keys gm st none = st)
  ∧ (∀ (c1 c2 : List Cell → Cell → Bool) (o1 o2 : Cell → Option Muni)
      (up : List Activity) (tok : String) (p : Params) (st : ServerState),
      gridView (get_activities_route c1 o1 up (some tok) p st).1
        = gridView (get_activities_route c2 o2 up (some tok) p st).1) := by
  refine ⟨fun _ _ _ => rfl, fun _ _ _ _ _ => rfl, ⟨rfl, rfl, rfl, rfl⟩, ?_, ?_, fun _ _ _ _ => rfl, ?_⟩
  · intro up tok p st
    simp only [get_stats_history]
    rcases hlk : resultLookup (ensureToken st tok) tok (statsKey p) with _ | v
    · rcases hcp : get_stats_compute ((p.gridMeters : ℚ) / 111320) p.selYear p.selSport
          (get_strava_activities_cached up tok (ensureToken st tok)).1 with _ | res
      · simp
      · simp
    · simp
  · intro c o up tok p st
    simp only [get_activities_route]
    rcases hlk : resultLookup (ensureToken st tok) tok (actKey p) with _ | v
    · rcases hcp : get_activities_compute c o
          (get_strava_activities_cached up tok (ensureToken st tok)).2.1.muniCache
          ((p.gridMeters : ℚ) / 111320) p.gridMeters p.selYear p.selSport
          (get_strava_activities_cached up tok (ensureToken st tok)).1 with _ | ⟨res, mc⟩
      · simp
      · simp
    · simp
  · intro c1 c2 o1 o2 up tok p st
    have key : ∀ (c : List Cell → Cell → Bool) (o : Cell → Option Muni),
        gridView (get_activities_route c o up (some tok) p st).1
          = match resultLookup (ensureToken st tok) tok (actKey p) with
            | some v => gridView (.inr v)
            | none =>
              (get_activities_compute c o
                (get_strava_activities_cached up tok (ensureToken st tok)).2.1.muniCache
                ((p.gridMeters : ℚ) / 111320) p.gridMeters p.selYear p.selSport
                (get_strava_activities_cached up tok (ensureToken st tok)).1).map
                (fun r => (r.1.grid_cells, r.1.total_distance, r.1.activity_count,
                  r.1.cells_conquered)) := by
      intro c o
      simp only [get_activities_route]
      rcases hlk : resultLookup (ensureToken st tok) tok (actKey p) with _ | v
      · rcases hcp : get_activities_compute c o
            (get_strava_activities_cached up tok (ensureToken st tok)).2.1.muniCache
            ((p.gridMeters : ℚ) / 111320) p.gridMeters p.selYear p.selSport
            (get_strava_activities_cached up tok (ensureToken st tok)).1
          with _ | ⟨res, mc⟩
        · rfl
        · rfl
      · rfl
    rw [key c1 o1, key c2 o2]
    rcases hlk : resultLookup (ensureToken st tok) tok (actKey p) with _ | v
    · exact compute_strip c1 c2 o1 o2 _ _ _ _ _ _ _
    · rfl

/-! ## C2: cache-hit determinism -/

theorem strava_cached_spec (up : List Activity) (t : String) (st : ServerState) :
    alookup (get_strava_activities_cached up t st).2.1.rawCache t
        = some (get_strava_activities_cached up t st).1
  ∧ (get_strava_activities_cached up t st).2.1.resultCache = st.resultCache
  ∧ (get_strava_activities_cached up t st).2.1.muniCache = st.muniCache := by
  unfold get_strava_activities_cached
  rcases hr : alookup st.rawCache t with _ | cached
  · refine ⟨?_, rfl, rfl⟩
    show alookup (aset st.rawCache t up) t = some up
    exact alookup_aset_self _ _ _
  · exact ⟨hr, rfl, rfl⟩

theorem strava_cached_stable (up2 : List Activity) (t : String) (st1 : ServerState)
    (acts : List Activity) (h : alookup st1.rawCache t = some acts) :
    get_strava_activities_cached up2 t st1 = (acts, st1, false) := by
  unfold get_strava_activities_cached
  rw [h]

/-- C2: re-querying either endpoint with the same credential and the same
parameters returns the same response as the first call and never re-invokes
the upstream activity provider, whatever the provider or the geocoder would
answer the second time. -/
theorem claim_C2 (st : ServerState) (tok : String) (p : Params)
    (up1 up2 : List Activity) (con1 con2 : List Cell → Cell → Bool)
    (or1 or2 : Cell → Option Muni) :
    ((get_stats_history up2 (some tok) p
        (get_stats_history up1 (some tok) p st).2.1).1
      = (get_stats_history up1 (some tok) p st).1
    ∧ (get_stats_history up2 (some tok) p
        (get_stats_history up1 (some tok) p st).2.1).2.2 = false)
  ∧ ((get_activities_route con2 or2 up2 (some tok) p
        (get_activities_route con1 or1 up1 (some tok) p st).2.1).1
      = (get_activities_route con1 or1 up1 (some tok) p st).1
    ∧ (get_activities_route con2 or2 up2 (some tok) p
        (get_activities_route con1 or1 up1 (some tok) p st).2.1).2.2 = false) := by
  constructor
  · rcases hlk : resultLookup (ensureToken st tok) tok (statsKey p) with _ | v
    · obtain ⟨hraw, hrc, hmc⟩ := strava_cached_spec up1 tok (ensureToken st tok)
      have hens1 : ensureToken
          (get_strava_activities_cached up1 tok (ensureToken st tok)).2.1 tok
          = (get_strava_activities_cached up1 tok (ensureToken st tok)).2.1 :=
        ensureToken_of_isSome (by rw [hrc]; exact ensureToken_isSome st tok)
      have hlk2 : resultLookup
          (get_strava_activities_cached up1 tok (ensureToken st tok)).2.1 tok (statsKey p)
          = none := by
        rw [resultLookup_congr tok (statsKey p) hrc]
        exact hlk
      have hga2 := strava_cached_stable up2 tok
        (get_strava_activities_cached up1 tok (ensureToken st tok)).2.1
        (get_strava_activities_cached up1 tok (ensureToken st tok)).1 hraw
      have hp1 : (get_strava_activities_cached up2 tok
          (get_strava_activities_cached up1 tok (ensureToken st tok)).2.1).1
          = (get_strava_activities_cached up1 tok (ensureToken st tok)).1 := by rw [hga2]
      have hp21 : (get_strava_activities_cached up2 tok
          (get_strava_activities_cached up1 tok (ensureToken st tok)).2.1).2.1
          = (get_strava_activities_cached up1 tok (ensureToken st tok)).2.1 := by rw [hga2]
      have hp22 : (get_strava_activities_cached up2 tok
          (get_strava_activities_cached up1 tok (ensureToken st tok)).2.1).2.2
          = false := by rw [hga2]
      rcases hcp : get_stats_compute ((p.gridMeters : ℚ) / 111320) p.selYear p.selSport
          (get_strava_activities_cached up1 tok (ensureToken st tok)).1 with _ | res
      · have e1 : get_stats_history up1 (some tok) p st
            = (.inl .serverError,
               (get_strava_activities_cached up1 tok (ensureToken st tok)).2.1,
               (get_strava_activities_cached up1 tok (ensureToken st tok)).2.2) := by
          simp only [get_stats_history]
          rw [hlk, hcp]
        have e2 : get_stats_history up2 (some tok) p
            (get_strava_activities_cached up1 tok (ensureToken st tok)).2.1
            = (.inl .serverError,
               (get_strava_activities_cached up1 tok (ensureToken st tok)).2.1, false) := by
          simp only [get_stats_history]
          rw [hens1, hlk2, hp1, hp21, hp22, hcp]
        have hs1 : (get_stats_history up1 (some tok) p st).2.1
            = (get_strava_activities_cached up1 tok (ensureToken st tok)).2.1 := by rw [e1]
        have hr1 : (get_stats_history up1 (some tok) p st).1 = .inl .serverError := by
          rw [e1]
        rw [hs1, hr1, e2]
        exact ⟨rfl, rfl⟩
      · have e1 : get_stats_history up1 (some tok) p st
            = (.inr (.stats res),
               resultStore (get_strava_activities_cached up1 tok (ensureToken st tok)).2.1
                 tok (statsKey p) (.stats res),
               (get_strava_activities_cached up1 tok (ensureToken st tok)).2.2) := by
          simp only [get_stats_history]
          rw [hlk, hcp]
        have e2 : get_stats_history up2 (some tok) p
            (resultStore (get_strava_activities_cached up1 tok (ensureToken st tok)).2.1
              tok (statsKey p) (.stats res))
            = (.inr (.stats res),
               resultStore (get_strava_activities_cached up1 tok (ensureToken st tok)).2.1
                 tok (statsKey p) (.stats res), false) := by
          simp only [get_stats_history]
          rw [ensureToken_of_isSome (resultStore_isSome _ tok (statsKey p) (.stats res)),
            resultLookup_store_self]
        have hs1 : (get_stats_history up1 (some tok) p st).2.1
            = resultStore (get_strava_activities_cached up1 tok (ensureToken st tok)).2.1
                tok (statsKey p) (.stats res) := by rw [e1]
        have hr1 : (get_stats_history up1 (some tok) p st).1 = .inr (.stats res) := by
          rw [e1]
        rw [hs1, hr1, e2]
        exact ⟨rfl, rfl⟩
    · have e1 : get_stats_history up1 (some tok) p st
          = (.inr v, ensureToken st tok, false) := by
        simp only [get_stats_history]
        rw [hlk]
      have e2 : get_stats_history up2 (some tok) p (ensureToken st tok)
          = (.inr v, ensureToken st tok, false) := by
        simp only [get_stats_history]
        rw [ensureToken_of_isSome (ensureToken_isSome st tok), hlk]
      have hs1 : (get_stats_history up1 (some tok) p st).2.1 = ensureToken st tok := by
        rw [e1]
      have hr1 : (get_stats_history up1 (some tok) p st).1 = .inr v := by rw [e1]
      rw [hs1, hr1, e2]
      exact ⟨rfl, rfl⟩
  · rcases hlk : resultLookup (ensureToken st tok) tok (actKey p) with _ | v
    · obtain ⟨hraw, hrc, hmc⟩ := strava_cached_spec up1 tok (ensureToken st tok)
      have hens1 : ensureToken
          (get_strava_activities_cached up1 tok (ensureToken st tok)).2.1 tok
          = (get_strava_activities_cached up1 tok (ensureToken st tok)).2.1 :=
        ensureToken_of_isSome (by rw [hrc]; exact ensureToken_isSome st tok)
      have hlk2 : resultLookup
          (get_strava_activities_cached up1 tok (ensureToken st tok)).2.1 tok (actKey p)
          = none := by
        rw [resultLookup_congr tok (actKey p) hrc]
        exact hlk
      have hga2 := strava_cached_stable up2 tok
        (get_strava_activities_cached up1 tok (ensureToken st tok)).2.1
        (get_strava_activities_cached up1 tok (ensureToken st tok)).1 hraw
      have hp1 : (get_strava_activities_cached up2 tok
          (get_strava_activities_cached up1 tok (ensureToken st tok)).2.1).1
          = (get_strava_activities_cached up1 tok (ensureToken st tok)).1 := by rw [hga2]
      have hp21 : (get_strava_activities_cached up2 tok
          (get_strava_activities_cached up1 tok (ensureToken st tok)).2.1).2.1
          = (get_strava_activities_cached up1 tok (ensureToken st tok)).2.1 := by rw [hga2]
      have hp22 : (get_strava_activities_cached up2 tok
          (get_strava_activities_cached up1 tok (ensureToken st tok)).2.1).2.2
          = false := by rw [hga2]
      rcases hcp : get_activities_compute con1 or1
          (get_strava_activities_cached up1 tok (ensureToken st tok)).2.1.muniCache
          ((p.gridMeters : ℚ) / 111320) p.gridMeters p.selYear p.selSport
          (get_strava_activities_cached up1 tok (ensureToken st tok)).1 with _ | ⟨res, mc⟩
      · have hcp2 : get_activities_compute con2 or2
            (get_strava_activities_cached up1 tok (ensureToken st tok)).2.1.muniCache
            ((p.gridMeters : ℚ) / 111320) p.gridMeters p.selYear p.selSport
            (get_strava_activities_cached up1 tok (ensureToken st tok)).1 = none :=
          (compute_none_iff con2 or2 _ _ _ _ _ _).mpr
            ((compute_none_iff con1 or1 _ _ _ _ _ _).mp hcp)
        have e1 : get_activities_route con1 or1 up1 (some tok) p st
            = (.inl .serverError,
               (get_strava_activities_cached up1 tok (ensureToken st tok)).2.1,
               (get_strava_activities_cached up1 tok (ensureToken st tok)).2.2) := by
          simp only [get_activities_route]
          rw [hlk, hcp]
        have e2 : get_activities_route con2 or2 up2 (some tok) p
            (get_strava_activities_cached up1 tok (ensureToken st tok)).2.1
            = (.inl .serverError,
               (get_strava_activities_cached up1 tok (ensureToken st tok)).2.1, false) := by
          simp only [get_activities_route]
          rw [hens1, hlk2, hp1, hp21, hp22, hcp2]
        have hs1 : (get_activities_route con1 or1 up1 (some tok) p st).2.1
            = (get_strava_activities_cached up1 tok (ensureToken st tok)).2.1 := by rw [e1]
        have hr1 : (get_activities_route con1 or1 up1 (some tok) p st).1
            = .inl .serverError := by rw [e1]
        rw [hs1, hr1, e2]
        exact ⟨rfl, rfl⟩
      · have e1 : get_activities_route con1 or1 up1 (some tok) p st
            = (.inr (.act res),
               resultStore (ServerState.mk
                 (get_strava_activities_cached up1 tok (ensureToken st tok)).2.1.rawCache
                 (get_strava_activities_cached up1 tok (ensureToken st tok)).2.1.resultCache
                 mc) tok (actKey p) (.act res),
               (get_strava_activities_cached up1 tok (ensureToken st tok)).2.2) := by
          simp only [get_activities_route]
          rw [hlk, hcp]
        have e2 : get_activities_route con2 or2 up2 (some tok) p
            (resultStore (ServerState.mk
              (get_strava_activities_cached up1 tok (ensureToken st tok)).2.1.rawCache
              (get_strava_activities_cached up1 tok (ensureToken st tok)).2.1.resultCache
              mc) tok (actKey p) (.act res))
            = (.inr (.act res),
               resultStore (ServerState.mk
                 (get_strava_activities_cached up1 tok (ensureToken st tok)).2.1.rawCache
                 (get_strava_activities_cached up1 tok (ensureToken st tok)).2.1.resultCache
                 mc) tok (actKey p) (.act res), false) := by
          simp only [get_activities_route]
          rw [ensureToken_of_isSome (resultStore_isSome _ tok (actKey p) (.act res)),
            resultLookup_store_self]
        have hs1 : (get_activities_route con1 or1 up1 (some tok) p st).2.1
            = resultStore (ServerState.mk
                (get_strava_activities_cached up1 tok (ensureToken st tok)).2.1.rawCache
                (get_strava_activities_cached up1 tok (ensureToken st tok)).2.1.resultCache
                mc) tok (actKey p) (.act res) := by rw [e1]
        have hr1 : (get_activities_route con1 or1 up1 (some tok) p st).1
            = .inr (.act res) := by rw [e1]
        rw [hs1, hr1, e2]
        exact ⟨rfl, rfl⟩
    · have e1 : get_activities_route con1 or1 up1 (some tok) p st
          = (.inr v, ensureToken st tok, false) := by
        simp only [get_activities_route]
        rw [hlk]
      have e2 : get_activities_route con2 or2 up2 (some tok) p (ensureToken st tok)
          = (.inr v, ensureToken st tok, false) := by
        simp only [get_activities_route]
        rw [ensureToken_of_isSome (ensureToken_isSome st tok), hlk]
      have hs1 : (get_activities_route con1 or1 up1 (some tok) p st).2.1
          = ensureToken st tok := by rw [e1]
      have hr1 : (get_activities_route con1 or1 up1 (some tok) p st).1 = .inr v := by
        rw [e1]
      rw [hs1, hr1, e2]
      exact ⟨rfl, rfl⟩

/-! ## C10: totality for positive grid sizes, division by zero at grid 0 -/

theorem pass_all (a : Activity) :
    (passYear "all" a && passSport "all" a) = true := by
  simp [passYear, passSport]

theorem get_cellsE_cons_zero (p : Cell) (rest : List Cell) :
    get_cells_from_polylineE (p :: rest) 0 = none := by
  simp [get_cells_from_polylineE]

theorem statsLoop_zero :
    ∀ (l : List Activity) (st : StatsAcc), (∃ a ∈ l, a.pts ≠ []) →
      statsLoop 0 "all" "all" l st = none := by
  intro l
  induction l with
  | nil =>
    intro st h
    exact absurd h (by simp)
  | cons a rest ih =>
    intro st h
    simp only [statsLoop]
    rcases ha : a.pts with _ | ⟨p, ptl⟩
    · have hstep : ∃ st2, statsActStep 0 "all" "all" st a = some st2 := by
        unfold statsActStep
        rw [if_pos (pass_all a), ha]
        exact ⟨_, rfl⟩
      obtain ⟨st2, hstep⟩ := hstep
      rw [hstep]
      apply ih
      obtain ⟨x, hx, hne⟩ := h
      rcases List.mem_cons.mp hx with rfl | hmem
      · rw [ha] at hne
        exact absurd rfl hne
      · exact ⟨x, hmem, hne⟩
    · have hstep : statsActStep 0 "all" "all" st a = none := by
        unfold statsActStep
        rw [if_pos (pass_all a), ha, get_cellsE_cons_zero]
      rw [hstep]

theorem routeLoop_zero :
    ∀ (l : List Activity) (st : RouteAcc), (∃ a ∈ l, a.pts ≠ []) →
      routeLoop 0 "all" "all" l st = none := by
  intro l
  induction l with
  | nil =>
    intro st h
    exact absurd h (by simp)
  | cons a rest ih =>
    intro st h
    simp only [routeLoop]
    rcases ha : a.pts with _ | ⟨p, ptl⟩
    · have hstep : ∃ st2, routeActStep 0 "all" "all" st a = some st2 := by
        unfold routeActStep
        rw [if_pos (pass_all a), ha]
        exact ⟨_, rfl⟩
      obtain ⟨st2, hstep⟩ := hstep
      rw [hstep]
      apply ih
      obtain ⟨x, hx, hne⟩ := h
      rcases List.mem_cons.mp hx with rfl | hmem
      · rw [ha] at hne
        exact absurd rfl hne
      · exact ⟨x, hmem, hne⟩
    · have hstep : routeActStep 0 "all" "all" st a = none := by
        unfold routeActStep
        rw [if_pos (pass_all a), ha, get_cellsE_cons_zero]
      rw [hstep]

/-- C10: `get_cells_from_polyline` is total for every grid size `r > 0`,
but neither endpoint validates the caller-supplied `grid_size`: with
`grid_size = 0` (so `grid_size_deg = 0/111320 = 0`) a request whose
activities contain any nonempty polyline reaches the unguarded division in
`to_key` and the request fails with an uncaught ZeroDivisionError instead
of a validation error. -/
theorem claim_C10 :
    (∀ (pts : List Cell) (g : ℚ), 0 < g → (get_cells_from_polylineE pts g).isSome)
  ∧ (∀ (up : List Activity) (tok : String) (st : ServerState),
      st.resultCache = [] → st.rawCache = [] → (∃ a ∈ up, a.pts ≠ []) →
      (get_stats_history up (some tok) ⟨0, "all", "all"⟩ st).1 = .inl .serverError)
  ∧ (∀ (c : List Cell → Cell → Bool) (o : Cell → Option Muni)
      (up : List Activity) (tok : String) (st : ServerState),
      st.resultCache = [] → st.rawCache = [] → (∃ a ∈ up, a.pts ≠ []) →
      (get_activities_route c o up (some tok) ⟨0, "all", "all"⟩ st).1
        = .inl .serverError) := by
  have hg0 : (((0 : ℤ) : ℚ)) / 111320 = 0 := by norm_num
  refine ⟨?_, ?_, ?_⟩
  · intro pts g hgpos
    rcases pts with _ | ⟨p, rest⟩
    · rfl
    · show (if g = 0 then none else some (get_cells_from_polyline (p :: rest) g)).isSome
      rw [if_neg (ne_of_gt hgpos)]
      rfl
  · intro up tok st hrc hraw hex
    have hens : ensureToken st tok
        = ServerState.mk st.rawCache [(tok, [])] st.muniCache := by
      unfold ensureToken
      rw [hrc]
      rfl
    have h1 : resultLookup (ensureToken st tok) tok (statsKey ⟨0, "all", "all"⟩)
        = none := by
      rw [hens]
      unfold resultLookup
      show (match alookup [(tok, ([] : List (String × CacheVal)))] tok with
        | none => none
        | some m => alookup m (statsKey ⟨0, "all", "all"⟩)) = none
      rw [show alookup [(tok, ([] : List (String × CacheVal)))] tok = some [] from by
        simp [alookup]]
      rfl
    have hacts : (get_strava_activities_cached up tok (ensureToken st tok)).1 = up := by
      unfold get_strava_activities_cached
      rw [hens, hraw]
      rfl
    have hcmp : get_stats_compute (((0 : ℤ) : ℚ) / 111320) "all" "all"
        (get_strava_activities_cached up tok (ensureToken st tok)).1 = none := by
      rw [hacts]
      unfold get_stats_compute
      rw [hg0, statsLoop_zero _ _
        ((exists_mem_of_perm (List.mergeSort_perm up _) (fun a => a.pts ≠ [])).mpr hex)]
      rfl
    simp only [get_stats_history]
    rw [h1, hcmp]
  · intro c o up tok st hrc hraw hex
    have hens : ensureToken st tok
        = ServerState.mk st.rawCache [(tok, [])] st.muniCache := by
      unfold ensureToken
      rw [hrc]
      rfl
    have h1 : resultLookup (ensureToken st tok) tok (actKey ⟨0, "all", "all"⟩)
        = none := by
      rw [hens]
      unfold resultLookup
      show (match alookup [(tok, ([] : List (String × CacheVal)))] tok with
        | none => none
        | some m => alookup m (actKey ⟨0, "all", "all"⟩)) = none
      rw [show alookup [(tok, ([] : List (String × CacheVal)))] tok = some [] from by
        simp [alookup]]
      rfl
    have hacts : (get_strava_activities_cached up tok (ensureToken st tok)).1 = up := by
      unfold get_strava_activities_cached
      rw [hens, hraw]
      rfl
    have hcmp : get_activities_compute c o
        (get_strava_activities_cached up tok (ensureToken st tok)).2.1.muniCache
        (((0 : ℤ) : ℚ) / 111320) 0 "all" "all"
        (get_strava_activities_cached up tok (ensureToken st tok)).1 = none := by
      rw [hacts]
      apply (compute_none_iff _ _ _ _ _ _ _ _).mpr
      rw [hg0]
      exact routeLoop_zero _ _ hex
    simp only [get_activities_route]
    rw [h1, hcmp]

/-! ## Concrete evaluations backing the witnesses -/

@[simp]
theorem pyRoundTo_zero (n : ℕ) : pyRoundTo n 0 = 0 := by
  have h := pyRoundTo_intCast n 0
  simpa using h

theorem to_key_zero : to_key 1 0 0 = ((0 : ℚ), (0 : ℚ)) := by
  rw [to_key_one]
  norm_num

theorem cells_single :
    get_cells_from_polyline [((0 : ℚ), (0 : ℚ))] 1 = [((0 : ℚ), (0 : ℚ))] := by
  show cellsLoop 1 ((0 : ℚ), (0 : ℚ)) [] (sadd [] (to_key 1 0 0)) = _
  rw [to_key_zero]
  rfl

theorem cellsE_single :
    get_cells_from_polylineE [((0 : ℚ), (0 : ℚ))] 1 = some [((0 : ℚ), (0 : ℚ))] := by
  show (if (1 : ℚ) = 0 then none else some (get_cells_from_polyline [((0 : ℚ), (0 : ℚ))] 1))
    = _
  rw [if_neg (by norm_num), cells_single]

/-- A one-activity fixture: a run on 2024-01, one-point polyline at the
origin. -/
def actW : Activity := ⟨0, 2024, 1, "Run", [((0 : ℚ), (0 : ℚ))], 0⟩

theorem statsEvalW :
    get_stats_compute 1 "all" "all" [actW]
      = some ⟨[202401], [1], [1], [0], 1, [2024], ["Run"]⟩ := by
  unfold get_stats_compute
  rw [show List.mergeSort [actW] (fun a b => decide (a.startKey ≤ b.startKey)) = [actW]
    from by simp [List.mergeSort]]
  simp only [statsLoop, statsActStep, actW]
  rw [if_pos (pass_all _)]
  simp only [ym, alookup]
  rw [show get_cells_from_polylineE [((0 : ℚ), (0 : ℚ))] 1 = some [((0 : ℚ), (0 : ℚ))]
    from cellsE_single]
  simp only [List.foldl_cons, List.foldl_nil, classifyBlock, List.not_mem_nil, if_neg,
    amod, sadd]
  norm_num [buildStats, monthNew, monthRoutine, runningTotals, alookup, List.mergeSort]

theorem routeLoopEvalW :
    routeLoop 1 "all" "all" [actW] ⟨[], [], [], [], 0, 0⟩
      = some ⟨[2024], [("Run", "Course à pied")], [[((0 : ℚ), (0 : ℚ))]],
          [(((0 : ℚ), (0 : ℚ)), ⟨1, 202401, 202401⟩)], 0, 1⟩ := by
  simp only [routeLoop, routeActStep, actW]
  rw [if_pos (pass_all _)]
  rw [show get_cells_from_polylineE [((0 : ℚ), (0 : ℚ))] 1 = some [((0 : ℚ), (0 : ℚ))]
    from cellsE_single]
  simp only [List.foldl_cons, List.foldl_nil, tallyBlock, alookup, sadd, ym,
    SPORT_TRANSLATIONS, amod]
  norm_num

theorem muniPhaseEvalW :
    muniPhase (fun _ _ => false) (fun _ => none) []
      [(((0 : ℚ), (0 : ℚ)), (⟨1, 202401, 202401⟩ : GridStat))] 100 = ⟨[], []⟩ := by
  unfold muniPhase
  rw [if_neg (by simp)]
  rw [show scan_points [(((0 : ℚ), (0 : ℚ)), (⟨1, 202401, 202401⟩ : GridStat))]
      = [((0 : ℚ), (0 : ℚ))] from by simp [scan_points, List.mergeSort]]
  simp only [List.map_cons, List.map_nil, fetch_city_data, alookup]
  simp only [List.foldl_cons, List.foldl_nil, collectStep]

theorem routeEvalW :
    get_activities_compute (fun _ _ => false) (fun _ => none) [] 1 100 "all" "all" [actW]
      = some (⟨[[((0 : ℚ), (0 : ℚ))]], [(((0 : ℚ), (0 : ℚ)), 1, 202401, 202401)], 1,
          [2024], [("Run", "Course à pied")], [], 0, 1, 1⟩, []) := by
  unfold get_activities_compute
  rw [routeLoopEvalW]
  show some (_, (muniPhase (fun _ _ => false) (fun _ => none) []
      [(((0 : ℚ), (0 : ℚ)), (⟨1, 202401, 202401⟩ : GridStat))] 100).muniCache) = _
  rw [muniPhaseEvalW]
  norm_num [List.mergeSort]

theorem pyRoundTo_hundred : pyRoundTo 2 (100 : ℚ) = 100 := by
  have h := pyRoundTo_intCast 2 100
  norm_num at h
  exact h

theorem processMuniEvalW :
    processMuni (fun _ _ => true) [((0 : ℚ), (0 : ℚ))] 1 ⟨"Ville", 1, [((0 : ℚ), (0 : ℚ))]⟩
      = some ⟨"Ville", [((0 : ℚ), (0 : ℚ))], 1, 100⟩ := by
  norm_num [processMuni, List.filter, pyRoundTo_hundred]

/-- Witness instance of C1 on the one-activity fixture. -/
theorem claim_C1_witness :
    (get_stats_compute 1 "all" "all" [actW]
        = some ⟨[202401], [1], [1], [0], 1, [2024], ["Run"]⟩)
  ∧ (([1] : List ℕ).sum = 1
     ∧ ([1] : List ℕ).length = ([1] : List ℕ).length
     ∧ ∀ i, i < ([1] : List ℕ).length →
         ([1] : List ℕ)[i]? = some ((([1] : List ℕ).take (i + 1)).sum)) :=
  ⟨statsEvalW, claim_C1 1 "all" "all" [actW] _ statsEvalW⟩

/-- Witness instance of C5 on the one-activity fixture, both endpoints. -/
theorem claim_C5_witness :
    (get_stats_compute 1 "all" "all" [actW]
        = some ⟨[202401], [1], [1], [0], 1, [2024], ["Run"]⟩)
  ∧ ((∀ y, y ∈ ([2024] : List ℕ) ↔ ∃ a ∈ [actW], a.year = y)
     ∧ (∀ s, s ∈ (["Run"] : List String) ↔ ∃ a ∈ [actW], a.sport = s))
  ∧ (get_activities_compute (fun _ _ => false) (fun _ => none) [] 1 100 "all" "all" [actW]
        = some (⟨[[((0 : ℚ), (0 : ℚ))]], [(((0 : ℚ), (0 : ℚ)), 1, 202401, 202401)], 1,
            [2024], [("Run", "Course à pied")], [], 0, 1, 1⟩, []))
  ∧ ((∀ y, y ∈ ([2024] : List ℕ) ↔ ∃ a ∈ [actW], a.year = y)
     ∧ (∀ s, s ∈ ([("Run", "Course à pied")] : List (String × String)).map Prod.fst ↔
          ∃ a ∈ [actW], a.sport = s)) :=
  ⟨statsEvalW, (claim_C5 1 "all" "all" [actW]).1 _ statsEvalW,
   routeEvalW, (claim_C5 1 "all" "all" [actW]).2 _ _ _ _ _ _ routeEvalW⟩

/-- Witness instance of C6 on a concrete municipality. -/
theorem claim_C6_witness :
    ((0 : ℚ) ≤ (⟨"Ville", 1, [((0 : ℚ), (0 : ℚ))]⟩ : Muni).area_m2)
  ∧ (processMuni (fun _ _ => true) [((0 : ℚ), (0 : ℚ))] 1
      ⟨"Ville", 1, [((0 : ℚ), (0 : ℚ))]⟩ = some ⟨"Ville", [((0 : ℚ), (0 : ℚ))], 1, 100⟩)
  ∧ (0 < (1 : ℕ) ∧ (0 : ℚ) ≤ 100 ∧ (100 : ℚ) ≤ 100
     ∧ (100 : ℚ) = pyRoundTo 2 (min (((1 : ℕ) : ℚ) * ((1 : ℤ) : ℚ) ^ 2 /
          (⟨"Ville", 1, [((0 : ℚ), (0 : ℚ))]⟩ : Muni).area_m2 * 100) 100)) :=
  ⟨by norm_num, processMuniEvalW,
   claim_C6 (fun _ _ => true) [((0 : ℚ), (0 : ℚ))] 1 _ _ (by norm_num) processMuniEvalW⟩

/-- Witness instance of C7, with the discard clause exercised at a full
(50-entry) identified map. -/
theorem claim_C7_witness :
    (scan_points ([] : List (Cell × GridStat))).length ≤ 600
  ∧ List.Pairwise (fun a b => b.2.cnt ≤ a.2.cnt)
      ((([] : List (Cell × GridStat)).mergeSort
        (fun a b => decide (b.2.cnt ≤ a.2.cnt))).take 600)
  ∧ (([] : List (Option (MuniKey × Muni))).foldl
        (collectStep (fun _ _ => false) [] 0) ⟨[], []⟩).identified.length ≤ 50
  ∧ (50 ≤ (List.replicate 50 ("x", (⟨"x", [], 1, 0⟩ : Summary))).length
     ∧ (collectStep (fun _ _ => false) [] 0
          ⟨[], List.replicate 50 ("x", (⟨"x", [], 1, 0⟩ : Summary))⟩ none).identified
        = List.replicate 50 ("x", (⟨"x", [], 1, 0⟩ : Summary))) := by
  obtain ⟨h1, h2, h3, h4⟩ :=
    claim_C7 ([] : List (Cell × GridStat)) (fun _ _ => false) [] 0 [] []
  exact ⟨h1, h2, h3, by simp,
    h4 ⟨[], List.replicate 50 ("x", ⟨"x", [], 1, 0⟩)⟩ none (by simp)⟩

theorem routeLoopEvalW2 :
    routeLoop 1 "all" "all" [actW]
        ⟨[], [], [], [(((0 : ℚ), (0 : ℚ)), ⟨1, 202402, 202402⟩)], 0, 0⟩
      = some ⟨[2024], [("Run", "Course à pied")], [[((0 : ℚ), (0 : ℚ))]],
          [(((0 : ℚ), (0 : ℚ)), ⟨2, 202401, 202402⟩)], 0, 1⟩ := by
  simp only [routeLoop, routeActStep, actW]
  rw [if_pos (pass_all _)]
  rw [show get_cells_from_polylineE [((0 : ℚ), (0 : ℚ))] 1 = some [((0 : ℚ), (0 : ℚ))]
    from cellsE_single]
  simp only [List.foldl_cons, List.foldl_nil, tallyBlock, alookup, sadd, ym,
    SPORT_TRANSLATIONS, amod]
  norm_num

/-- Witness instance of C9: a re-visit widens `first` and bumps `cnt`. -/
theorem claim_C9_witness :
    (routeLoop 1 "all" "all" [actW]
        ⟨[], [], [], [(((0 : ℚ), (0 : ℚ)), ⟨1, 202402, 202402⟩)], 0, 0⟩
      = some ⟨[2024], [("Run", "Course à pied")], [[((0 : ℚ), (0 : ℚ))]],
          [(((0 : ℚ), (0 : ℚ)), ⟨2, 202401, 202402⟩)], 0, 1⟩)
  ∧ (alookup [(((0 : ℚ), (0 : ℚ)), (⟨1, 202402, 202402⟩ : GridStat))] ((0 : ℚ), (0 : ℚ))
      = some ⟨1, 202402, 202402⟩)
  ∧ (∃ s', alookup [(((0 : ℚ), (0 : ℚ)), (⟨2, 202401, 202402⟩ : GridStat))]
        ((0 : ℚ), (0 : ℚ)) = some s'
      ∧ 1 ≤ s'.cnt ∧ s'.first ≤ 202402 ∧ 202402 ≤ s'.last) :=
  ⟨routeLoopEvalW2, by simp [alookup],
   claim_C9 1 "all" "all" [actW] _ _ routeLoopEvalW2 ((0 : ℚ), (0 : ℚ))
     ⟨1, 202402, 202402⟩ (by simp [alookup])⟩

/-- Witness instance of C10: grid size 1 is total; grid size 0 turns both
endpoints into a 500-style failure on a nonempty polyline. -/
theorem claim_C10_witness :
    ((0 : ℚ) < 1 ∧ (get_cells_from_polylineE [((0 : ℚ), (0 : ℚ))] 1).isSome)
  ∧ ((⟨[], [], []⟩ : ServerState).resultCache = []
     ∧ (⟨[], [], []⟩ : ServerState).rawCache = []
     ∧ (∃ a ∈ [actW], a.pts ≠ [])
     ∧ (get_stats_history [actW] (some "tok") ⟨0, "all", "all"⟩ ⟨[], [], []⟩).1
        = .inl .serverError)
  ∧ (get_activities_route (fun _ _ => false) (fun _ => none) [actW] (some "tok")
        ⟨0, "all", "all"⟩ ⟨[], [], []⟩).1 = .inl .serverError := by
  have hex : ∃ a ∈ [actW], a.pts ≠ [] := ⟨actW, by simp, by simp [actW]⟩
  exact ⟨⟨by norm_num, claim_C10.1 [((0 : ℚ), (0 : ℚ))] 1 (by norm_num)⟩,
    ⟨rfl, rfl, hex, claim_C10.2.1 [actW] "tok" ⟨[], [], []⟩ rfl rfl hex⟩,
    claim_C10.2.2 (fun _ _ => false) (fun _ => none) [actW] "tok" ⟨[], [], []⟩ rfl rfl hex⟩

/-- Witness instance of C8 at concrete requests with and without a
credential. -/
theorem claim_C8_witness :
    (get_stats_history [] none ⟨100, "all", "all"⟩ ⟨[], [], []⟩
      = (.inl .unauthenticated, ⟨[], [], []⟩, false))
  ∧ httpStatus .unauthenticated = 401
  ∧ collectStep (fun _ _ => false) [] 0 ⟨[], []⟩ none = ⟨[], []⟩
  ∧ (get_stats_history [actW] (some "tok") ⟨100, "all", "all"⟩ ⟨[], [], []⟩).1
      ≠ .inl .unauthenticated
  ∧ gridView (get_activities_route (fun _ _ => false) (fun _ => none) [actW]
        (some "tok") ⟨100, "all", "all"⟩ ⟨[], [], []⟩).1
      = gridView (get_activities_route (fun _ _ => true) (fun _ => none) [actW]
        (some "tok") ⟨100, "all", "all"⟩ ⟨[], [], []⟩).1 :=
  ⟨claim_C8.1 [] ⟨100, "all", "all"⟩ ⟨[], [], []⟩,
   claim_C8.2.2.1.1,
   claim_C8.2.2.2.2.2.1 (fun _ _ => false) [] 0 ⟨[], []⟩,
   claim_C8.2.2.2.1 [actW] "tok" ⟨100, "all", "all"⟩ ⟨[], [], []⟩,
   claim_C8.2.2.2.2.2.2 (fun _ _ => false) (fun _ _ => true) (fun _ => none)
     (fun _ => none) [actW] "tok" ⟨100, "all", "all"⟩ ⟨[], [], []⟩⟩

end Unlock
